import Mathlib

/-!
Verification development for the Dots cellular-automaton engine
(`src/App.tsx`).  The simulation core is embedded shallowly:

* `Cell`, `Grid` mirror the TypeScript cell/grid model (`health?: number`
  becomes `Option Nat`, `team?: Team` becomes `Option Team`).
* `Math.random()` values are modelled as an explicit stream of per-mille
  integers (`Rng`): a drawn value `k` stands for the real number
  `k / RAND_DENOM`.  All the source's probability gates (`< 0.25`,
  `< 0.12`) sit on this grid, so the comparisons are exact; `randIndex`
  clamps the Fisher-Yates index so the model is total even on streams
  outside `[0, RAND_DENOM)` (which `Math.random` never yields).
* `stepGrid` is the per-tick rule resolver; `runNutrients` is the
  nutrient-flow engine.  The animation-hint bookkeeping (`anims`) of the
  source is omitted: it is write-only presentation metadata that the
  simulation never reads back.  The nutrient `id` field is likewise
  omitted: it is generated from `Date.now()`/`Math.random()` and never read
  by any logic.
-/

namespace Dots

inductive Team where
  | blue
  | green
deriving DecidableEq, Repr

inductive CellState where
  | empty
  | dot
  | producer
  | block
  | bombArmed
  | bombHot
deriving DecidableEq, Repr

structure Cell where
  state : CellState
  team : Option Team
  health : Option Nat
deriving DecidableEq, Repr

def emptyCell : Cell := ⟨CellState.empty, none, none⟩

abbrev Grid := List (List Cell)

abbrev Pos := Int × Int

abbrev Dir := Int × Int

def ROWS : Nat := 24

def COLS : Nat := 24

def CARDINALS : List Dir := [(1, 0), (-1, 0), (0, 1), (0, -1)]

def DIAGONALS : List Dir := [(1, 1), (1, -1), (-1, 1), (-1, -1)]

def ALL_NEIGHBORS : List Dir := CARDINALS ++ DIAGONALS

/-- Scale of the random-draw model: a draw `k` models `k / RAND_DENOM`. -/
def RAND_DENOM : Nat := 1000

/-- `0.12`, scaled by `RAND_DENOM`. -/
def BLAST_SURVIVAL_CHANCE : Nat := 120

/-- `0.25`, scaled by `RAND_DENOM`. -/
def SPILL_CHANCE : Nat := 250

def MAX_HEALTH : Nat := 3

def PRODUCE_EVERY : Nat := 6

def MAX_NUTRIENTS_PER_CELL : Nat := 1

def createEmptyGrid (rows cols : Nat) : Grid :=
  List.replicate rows (List.replicate cols emptyCell)

def rowsOf (g : Grid) : Nat := g.length

def colsOf (g : Grid) : Nat := (g.headD []).length

def inBounds (r c : Int) (rows cols : Nat) : Bool :=
  decide (0 ≤ r) && decide (r < (rows : Int)) && decide (0 ≤ c) && decide (c < (cols : Int))

def getCell (g : Grid) (p : Pos) : Cell :=
  if 0 ≤ p.1 ∧ 0 ≤ p.2 then (g.getD p.1.toNat []).getD p.2.toNat emptyCell else emptyCell

def setCell (g : Grid) (p : Pos) (v : Cell) : Grid :=
  if 0 ≤ p.1 ∧ 0 ≤ p.2 then g.set p.1.toNat ((g.getD p.1.toNat []).set p.2.toNat v) else g

/-- Explicit stream standing for the successive values drawn from the
source's hardcoded `Math.random()` calls. -/
structure Rng where
  vals : List Nat
deriving DecidableEq, Repr

def Rng.next : Rng → Nat × Rng
  | ⟨[]⟩ => (0, ⟨[]⟩)
  | ⟨v :: vs⟩ => (v, ⟨vs⟩)

/-- Index produced by `Math.floor(Math.random() * n)` for a per-mille draw;
clamped so the model stays total on out-of-range streams. -/
def randIndex (q : Nat) (n : Nat) : Nat :=
  min (q * n / RAND_DENOM) (n - 1)

def listSwap {α : Type _} (l : List α) (i j : Nat) : List α :=
  match l[i]?, l[j]? with
  | some a, some b => (l.set i b).set j a
  | _, _ => l

/-- Fisher-Yates loop of `shuffled` (`for i = len-1; i > 0; i -= 1`). -/
def shuffleGo {α : Type _} (l : List α) : Nat → Rng → List α × Rng
  | 0, rng => (l, rng)
  | i + 1, rng =>
    let (q, rng') := rng.next
    let j := randIndex q (i + 2)
    shuffleGo (listSwap l (i + 1) j) i rng'

def shuffled {α : Type _} (l : List α) (rng : Rng) : List α × Rng :=
  shuffleGo l (l.length - 1) rng

def positions (rows cols : Nat) : List Pos :=
  (List.range rows).flatMap fun r => (List.range cols).map fun c => (Int.ofNat r, Int.ofNat c)

def isDotLike (cell : Cell) : Bool :=
  match cell.state with
  | CellState.dot => true
  | CellState.producer => true
  | _ => false

def hasEnemyNeighbor (g : Grid) (r c : Int) (team : Option Team) : Bool :=
  match team with
  | none => false
  | some t =>
    CARDINALS.any fun d =>
      let nr := r + d.1
      let nc := c + d.2
      inBounds nr nc (rowsOf g) (colsOf g) &&
        (let other := getCell g (nr, nc)
         other.team.isSome && decide (other.team ≠ some t) &&
           decide (other.state ≠ CellState.empty))

/-- The raw 3×3 box around the bomb, in the source's loop order. -/
def box3 (r c : Int) : List Pos :=
  (List.range 3).flatMap fun i =>
    (List.range 3).map fun j => (r + (i : Int) - 1, c + (j : Int) - 1)

/-- The eight spillover candidates pushed by `collectBlastCells`. -/
def spillCandidates (r c : Int) : List Pos :=
  [(r + 2, c), (r - 2, c), (r, c + 2), (r, c - 2),
   (r + 1, c + 1), (r + 1, c - 1), (r - 1, c + 1), (r - 1, c - 1)]

/-- One spillover candidate: out-of-bounds candidates are skipped without
drawing; in-bounds ones are kept when the draw is below `SPILL_CHANCE`. -/
def spillStep (rows cols : Nat) (st : List Pos × Rng) (p : Pos) : List Pos × Rng :=
  if inBounds p.1 p.2 rows cols then
    let (q, rng2) := st.2.next
    (if q < SPILL_CHANCE then st.1 ++ [p] else st.1, rng2)
  else st

def collectBlastCells (r c : Int) (rows cols : Nat) (rng : Rng) : List Pos × Rng :=
  let base := (box3 r c).filter fun p => inBounds p.1 p.2 rows cols
  (spillCandidates r c).foldl (spillStep rows cols) (base, rng)

def enemyBlockCount (g : Grid) (p : Pos) : Nat :=
  (ALL_NEIGHBORS.filter fun d =>
    let nr := p.1 + d.1
    let nc := p.2 + d.2
    inBounds nr nc (rowsOf g) (colsOf g) &&
      decide ((getCell g (nr, nc)).state = CellState.block) &&
      decide ((getCell g (nr, nc)).team ≠ (getCell g p).team)).length

/-- Dots/producers with 4+ adjacent enemy blocks (source `toArm`). -/
def armedCells (g : Grid) : List Pos :=
  (positions (rowsOf g) (colsOf g)).filter fun p =>
    isDotLike (getCell g p) && decide (4 ≤ enemyBlockCount g p)

/-- Cells that are `bomb-armed` in the pre-tick grid (source `toHot`). -/
def hotCells (g : Grid) : List Pos :=
  (positions (rowsOf g) (colsOf g)).filter fun p =>
    decide ((getCell g p).state = CellState.bombArmed)

/-- Cells that are `bomb-hot` in the pre-tick grid (source `toExplode`). -/
def explodeCells (g : Grid) : List Pos :=
  (positions (rowsOf g) (colsOf g)).filter fun p =>
    decide ((getCell g p).state = CellState.bombHot)

def applyArm (g next : Grid) : Grid :=
  (armedCells g).foldl
    (fun acc p => setCell acc p ⟨CellState.bombArmed, (getCell g p).team, none⟩) next

def applyHot (g next : Grid) : Grid :=
  (hotCells g).foldl
    (fun acc p => setCell acc p ⟨CellState.bombHot, (getCell g p).team, none⟩) next

def gatherBlasts (g : Grid) (rng : Rng) : List Pos × Rng :=
  (explodeCells g).foldl
    (fun st p =>
      let (cs, rng') := collectBlastCells p.1 p.2 (rowsOf g) (colsOf g) st.2
      (st.1 ++ cs, rng'))
    ([], rng)

def applyBlasts (next : Grid) (cells : List Pos) (rows cols : Nat) (rng : Rng) : Grid × Rng :=
  cells.foldl
    (fun st p =>
      if inBounds p.1 p.2 rows cols then
        let cell := getCell st.1 p
        if cell.state = CellState.bombArmed ∨ cell.state = CellState.bombHot then
          (setCell st.1 p emptyCell, st.2)
        else
          let (q, rng2) := st.2.next
          if q < BLAST_SURVIVAL_CHANCE then (st.1, rng2) else (setCell st.1 p emptyCell, rng2)
      else st)
    (next, rng)

structure Intent where
  r : Int
  c : Int
  team : Option Team
deriving DecidableEq, Repr

/-- One dot/producer trying the shuffled cardinal directions in order
(the body of the source's replication loop). -/
def tryDirs (g : Grid) (r c : Int) (team : Option Team) : List Dir → Option Intent
  | [] => none
  | d :: rest =>
    let nr := r + d.1
    let nc := c + d.2
    if inBounds nr nc (rowsOf g) (colsOf g) then
      if (getCell g (nr, nc)).state = CellState.empty then some ⟨nr, nc, team⟩
      else if isDotLike (getCell g (nr, nc)) then
        let rr := nr + d.1
        let cc := nc + d.2
        if inBounds rr cc (rowsOf g) (colsOf g) ∧ (getCell g (rr, cc)).state = CellState.empty then
          some ⟨rr, cc, team⟩
        else if (getCell g (nr, nc)).team ≠ team then some ⟨nr, nc, team⟩
        else tryDirs g r c team rest
      else tryDirs g r c team rest
    else tryDirs g r c team rest

/-- One position of the replication scan: dot-like cells shuffle the
cardinal directions and try them in order. -/
def scanStep (g : Grid) (st : List Intent × Rng) (p : Pos) : List Intent × Rng :=
  if isDotLike (getCell g p) then
    let (dirs, rng') := shuffled CARDINALS st.2
    match tryDirs g p.1 p.2 (getCell g p).team dirs with
    | some it => (st.1 ++ [it], rng')
    | none => (st.1, rng')
  else st

/-- The replication/combat scan.  It reads the grid it is handed; `stepGrid`
passes the original pre-tick grid, exactly as the source does. -/
def replicationIntents (g : Grid) (rng : Rng) : List Intent × Rng :=
  (positions (rowsOf g) (colsOf g)).foldl (scanStep g) ([], rng)

def applyIntent (next : Grid) (it : Intent) : Grid :=
  let cell := getCell next (it.r, it.c)
  if cell.state = CellState.empty then
    setCell next (it.r, it.c) ⟨CellState.dot, it.team, some 0⟩
  else if cell.team.isSome ∧ cell.team ≠ it.team then
    if 0 < cell.health.getD 0 then
      setCell next (it.r, it.c) { cell with health := some (cell.health.getD 0 - 1) }
    else
      setCell next (it.r, it.c) ⟨CellState.dot, it.team, some 0⟩
  else next

def resolveIntents (next : Grid) (intents : List Intent) (rng : Rng) : Grid × Rng :=
  let (sh, rng') := shuffled intents rng
  (sh.foldl applyIntent next, rng')

/-- Five consecutive dot/producer cells all of one team (the source checks
`every(isDotLike)` plus a one-element team set). -/
def sameTeamDotRun (cells : List Cell) : Bool :=
  cells.all (fun cell => isDotLike cell) &&
    (cells.map Cell.team).all fun t => decide (t = (cells.map Cell.team).headD none)

def hCenters (g : Grid) : List Pos :=
  (List.range (rowsOf g)).flatMap fun r =>
    (List.range (colsOf g - 4)).flatMap fun c =>
      let seg := (List.range 5).map fun k => getCell g ((r : Int), (c : Int) + (k : Int))
      if sameTeamDotRun seg then [((r : Int), (c : Int) + 2)] else []

def vCenters (g : Grid) : List Pos :=
  (List.range (colsOf g)).flatMap fun c =>
    (List.range (rowsOf g - 4)).flatMap fun r =>
      let seg := (List.range 5).map fun k => getCell g ((r : Int) + (k : Int), (c : Int))
      if sameTeamDotRun seg then [((r : Int) + 2, (c : Int))] else []

/-- The source collects centers in a `Set<string>`: duplicates are dropped,
first insertion order is kept. -/
def dedupKeepFirst (l : List Pos) : List Pos :=
  l.foldl (fun acc p => if p ∈ acc then acc else acc ++ [p]) []

def lineFiveCenters (g : Grid) : List Pos :=
  dedupKeepFirst (hCenters g ++ vCenters g)

def openNeighbors (g : Grid) (r c : Int) : List Pos :=
  (CARDINALS.map fun d => (r + d.1, c + d.2)).filter fun p =>
    inBounds p.1 p.2 (rowsOf g) (colsOf g) &&
      decide ((getCell g p).state = CellState.empty)

def resolveCenter (st : Grid × Rng) (p : Pos) : Grid × Rng :=
  let g := st.1
  if (getCell g p).state = CellState.dot then
    let team := (getCell g p).team
    let opens := openNeighbors g p.1 p.2
    if opens.isEmpty then
      let g1 := setCell g p emptyCell
      (DIAGONALS.foldl
        (fun acc d =>
          let q : Pos := (p.1 + d.1, p.2 + d.2)
          if inBounds q.1 q.2 (rowsOf g) (colsOf g) then
            if (getCell acc q).state = CellState.empty then
              setCell acc q ⟨CellState.dot, team, none⟩
            else setCell acc q ⟨CellState.block, team, none⟩
          else acc)
        g1, st.2)
    else
      let (sh, rng') := shuffled opens st.2
      let q := sh.headD (0, 0)
      let moved := setCell g q ⟨CellState.dot, team, (getCell g p).health⟩
      (setCell moved p emptyCell, rng')
  else st

def resolveCenters (g : Grid) (centers : List Pos) (rng : Rng) : Grid × Rng :=
  let (sh, rng') := shuffled centers rng
  sh.foldl resolveCenter (g, rng')

structure StepOut where
  grid : Grid
  blasts : List Pos
  rng : Rng

/-- Phases 1-2 of `stepGrid`: bomb arming, armed→hot, detonation. -/
def bombPhase (g : Grid) (rng : Rng) : Grid × List Pos × Rng :=
  let n2 := applyHot g (applyArm g g)
  let (bcells, rng1) := gatherBlasts g rng
  let (n3, rng2) := applyBlasts n2 bcells (rowsOf g) (colsOf g) rng1
  (n3, bcells, rng2)

/-- Phases 1-3: the replication scan reads the ORIGINAL pre-tick grid `g`
(source lines 163-193 index `grid`, not `next`); the resolution writes the
mutated grid. -/
def intentPhase (g : Grid) (rng : Rng) : Grid × List Pos × Rng :=
  let (n3, b, rng2) := bombPhase g rng
  let (its, rng3) := replicationIntents g rng2
  let (n4, rng4) := resolveIntents n3 its rng3
  (n4, b, rng4)

def stepGrid (g : Grid) (rng : Rng) : StepOut :=
  let (n4, b, rng4) := intentPhase g rng
  let (n5, rng5) := resolveCenters n4 (lineFiveCenters n4) rng4
  ⟨n5, b, rng5⟩

/-- Modelled from the spec (for claim C2 only): the variant of phase 3 the
spec describes, whose replication scan reads the grid AFTER bomb
detonation instead of the pre-tick grid. -/
def intentPhaseSpecC2 (g : Grid) (rng : Rng) : Grid × List Pos × Rng :=
  let (n3, b, rng2) := bombPhase g rng
  let (its, rng3) := replicationIntents n3 rng2
  let (n4, rng4) := resolveIntents n3 its rng3
  (n4, b, rng4)

/-- Modelled from the spec (for claim C2 only): `stepGrid` as the spec
sentence describes it, with the scan based on the post-detonation grid. -/
def stepGridSpecC2 (g : Grid) (rng : Rng) : StepOut :=
  let (n4, b, rng4) := intentPhaseSpecC2 g rng
  let (n5, rng5) := resolveCenters n4 (lineFiveCenters n4) rng4
  ⟨n5, b, rng5⟩

/-- Nutrient token.  The source's `id` string is built from `Date.now()` and
`Math.random()` and is never read by any game logic, so it is omitted. -/
structure Nutrient where
  r : Int
  c : Int
  team : Team
  dir : Dir
  prev : Option Dir
deriving DecidableEq, Repr

def pruneNutrients (g : Grid) (ns : List Nutrient) : List Nutrient :=
  ns.filter fun n =>
    inBounds n.r n.c (rowsOf g) (colsOf g) &&
      decide ((getCell g (n.r, n.c)).state = CellState.block) &&
      decide ((getCell g (n.r, n.c)).team = some n.team)

def wallNeighborDirs (g : Grid) (r c : Int) (team : Team) (prev : Option Dir) : List Dir :=
  let dirs := CARDINALS.filter fun d =>
    let nr := r + d.1
    let nc := c + d.2
    inBounds nr nc (rowsOf g) (colsOf g) &&
      decide ((getCell g (nr, nc)).state = CellState.block) &&
      decide ((getCell g (nr, nc)).team = some team)
  match prev with
  | some pd =>
    if 1 < dirs.length then
      dirs.filter fun d => !(decide (d.1 = -pd.1) && decide (d.2 = -pd.2))
    else dirs
  | none => dirs

/-- The cardinal-adjacent same-team dots/producers collected by
`handleDeadEnd`, in the fixed `CARDINALS` scan order. -/
def friendlyDots (g : Grid) (n : Nutrient) : List Pos :=
  (CARDINALS.map fun d => (n.r + d.1, n.c + d.2)).filter fun p =>
    inBounds p.1 p.2 (rowsOf g) (colsOf g) &&
      decide ((getCell g p).team = some n.team) && isDotLike (getCell g p)

/-- `feedDot`: bump health (capped at `MAX_HEALTH`), then convert to a
producer when no enemy is cardinally adjacent. -/
def feedDot (g : Grid) (p : Pos) (team : Team) : Grid :=
  let cell := getCell g p
  if decide (cell.team = some team) && isDotLike cell then
    let fed : Cell := { cell with health := some (min MAX_HEALTH (cell.health.getD 0 + 1)) }
    let g1 := setCell g p fed
    if hasEnemyNeighbor g1 p.1 p.2 (some team) then g1
    else setCell g1 p { fed with state := CellState.producer }
  else g

def handleDeadEnd (g : Grid) (n : Nutrient) : Grid :=
  match friendlyDots g n with
  | [] => g
  | p :: _ => feedDot g p n.team

/-- Accumulator threaded through `runNutrients`: the working grid, the
per-destination occupancy multiset, the tokens pushed so far, and the
random stream. -/
structure FlowState where
  grid : Grid
  occ : List Pos
  toks : List Nutrient
  rng : Rng

def validHost (g : Grid) (n : Nutrient) : Bool :=
  inBounds n.r n.c (rowsOf g) (colsOf g) &&
    decide ((getCell g (n.r, n.c)).state = CellState.block) &&
    decide ((getCell g (n.r, n.c)).team = some n.team)

/-- Processing of one token in the `nutrients.forEach` loop. -/
def processToken (st : FlowState) (n : Nutrient) : FlowState :=
  if validHost st.grid n then
    let dirs := wallNeighborDirs st.grid n.r n.c n.team (some n.dir)
    if dirs.isEmpty then { st with grid := handleDeadEnd st.grid n }
    else
      let (sh, rng') := shuffled dirs st.rng
      let d := sh.headD (0, 0)
      let nr := n.r + d.1
      let nc := n.c + d.2
      if MAX_NUTRIENTS_PER_CELL ≤ st.occ.count (nr, nc) then
        { st with occ := (n.r, n.c) :: st.occ, toks := st.toks ++ [n], rng := rng' }
      else
        { st with
            occ := (nr, nc) :: st.occ
            toks := st.toks ++ [{ n with r := nr, c := nc, prev := some n.dir, dir := d }]
            rng := rng' }
  else st

/-- Producer emission for one scanned position (the body of the
`// Producer spawns` loop). -/
def emitStep (st : FlowState) (p : Pos) : FlowState :=
  let cell := getCell st.grid p
  if cell.state = CellState.producer then
    match cell.team with
    | some t =>
      let dirs := wallNeighborDirs st.grid p.1 p.2 t none
      if dirs.isEmpty then st
      else
        let (sh, rng') := shuffled dirs st.rng
        let d := sh.headD (0, 0)
        let nr := p.1 + d.1
        let nc := p.2 + d.2
        if MAX_NUTRIENTS_PER_CELL ≤ st.occ.count (nr, nc) then { st with rng := rng' }
        else
          { st with
              occ := (nr, nc) :: st.occ
              toks := st.toks ++ [⟨nr, nc, t, d, none⟩]
              rng := rng' }
    | none => st
  else st

structure FlowOut where
  grid : Grid
  tokens : List Nutrient
  rng : Rng

def runNutrients (g : Grid) (ns : List Nutrient) (tick : Nat) (rng : Rng) : FlowOut :=
  let st1 := ns.foldl processToken ⟨g, [], [], rng⟩
  let st2 :=
    if tick % PRODUCE_EVERY = 0 then
      (positions (rowsOf g) (colsOf g)).foldl emitStep st1
    else st1
  ⟨st2.grid, st2.toks, st2.rng⟩

/-- Click seeding (`placeDot`): only an empty cell accepts a dot. -/
def placeDot (g : Grid) (team : Team) (r c : Int) : Grid :=
  if (getCell g (r, c)).state = CellState.empty then
    setCell g (r, c) ⟨CellState.dot, some team, some 0⟩
  else g

/-- Drop seeding with a producer chip (`handleDrop`, producer branch). -/
def placeProducer (g : Grid) (team : Team) (r c : Int) : Grid :=
  if (getCell g (r, c)).state = CellState.empty then
    setCell g (r, c) ⟨CellState.producer, some team, some 0⟩
  else g

/-- Grids reachable in the app: the initial empty board, then any
interleaving of rule ticks, nutrient ticks, seeding and reset. -/
inductive Reachable : Grid → Prop where
  | init : Reachable (createEmptyGrid ROWS COLS)
  | step (g : Grid) (rng : Rng) : Reachable g → Reachable (stepGrid g rng).grid
  | flow (g : Grid) (ns : List Nutrient) (tick : Nat) (rng : Rng) :
      Reachable g → Reachable (runNutrients g ns tick rng).grid
  | seedDot (g : Grid) (team : Team) (r c : Int) :
      Reachable g → Reachable (placeDot g team r c)
  | seedProducer (g : Grid) (team : Team) (r c : Int) :
      Reachable g → Reachable (placeProducer g team r c)
  | reset (g : Grid) : Reachable g → Reachable (createEmptyGrid ROWS COLS)

/-- Strengthened per-cell invariant (inductive form): empty cells have no
team, non-empty cells always have one, and health never exceeds 3. -/
def SInv (cell : Cell) : Prop :=
  (cell.state = CellState.empty → cell.team = none) ∧
    (cell.state ≠ CellState.empty → cell.team.isSome = true) ∧
    cell.health.getD 0 ≤ MAX_HEALTH

def GridInv (g : Grid) : Prop :=
  ∀ row ∈ g, ∀ cell ∈ row, SInv cell

/-- Number of tokens of a list sitting on one cell. -/
def tokensAt (p : Pos) (l : List Nutrient) : Nat :=
  (l.filter fun n => decide (n.r = p.1) && decide (n.c = p.2)).length

/-- A position that actually indexes into the (possibly ragged) grid. -/
def ValidPos (g : Grid) (p : Pos) : Prop :=
  0 ≤ p.1 ∧ p.1.toNat < g.length ∧ 0 ≤ p.2 ∧ p.2.toNat < (g.getD p.1.toNat []).length

instance (g : Grid) (p : Pos) : Decidable (ValidPos g p) := by
  unfold ValidPos; infer_instance

theorem list_getD_set_ne {α : Type _} (l : List α) (i j : Nat) (a d : α) (h : i ≠ j) :
    (l.set i a).getD j d = l.getD j d := by
  rw [List.getD_eq_getElem?_getD, List.getD_eq_getElem?_getD, List.getElem?_set_ne h]

theorem list_getD_set_self {α : Type _} (l : List α) (i : Nat) (a d : α) :
    (l.set i a).getD i d = if i < l.length then a else d := by
  rw [List.getD_eq_getElem?_getD, List.getElem?_set]
  by_cases hl : i < l.length
  · simp [hl]
  · have : l[i]? = none := by rw [List.getElem?_eq_none_iff]; omega
    simp [hl, this]

theorem getCell_pos (g : Grid) (p : Pos) (h : 0 ≤ p.1 ∧ 0 ≤ p.2) :
    getCell g p = (g.getD p.1.toNat []).getD p.2.toNat emptyCell := by
  unfold getCell; rw [if_pos h]

theorem setCell_pos (g : Grid) (p : Pos) (v : Cell) (h : 0 ≤ p.1 ∧ 0 ≤ p.2) :
    setCell g p v = g.set p.1.toNat ((g.getD p.1.toNat []).set p.2.toNat v) := by
  unfold setCell; rw [if_pos h]

theorem getCell_setCell_ne (g : Grid) (p q : Pos) (v : Cell) (h : p ≠ q) :
    getCell (setCell g p v) q = getCell g q := by
  by_cases hp : 0 ≤ p.1 ∧ 0 ≤ p.2
  · by_cases hq : 0 ≤ q.1 ∧ 0 ≤ q.2
    · rw [setCell_pos g p v hp, getCell_pos _ q hq, getCell_pos g q hq]
      by_cases h1 : p.1.toNat = q.1.toNat
      · have h2 : p.2.toNat ≠ q.2.toNat := by
          intro h2
          exact h (Prod.ext (by omega) (by omega))
        rw [h1, list_getD_set_self]
        by_cases hl : q.1.toNat < g.length
        · rw [if_pos hl, list_getD_set_ne _ _ _ _ _ h2]
        · rw [if_neg hl]
          have : g.getD q.1.toNat [] = [] := by
            rw [List.getD_eq_getElem?_getD]
            have : g[q.1.toNat]? = none := by rw [List.getElem?_eq_none_iff]; omega
            rw [this]
            rfl
          rw [this]
      · rw [list_getD_set_ne _ _ _ _ _ h1]
    · unfold getCell
      rw [if_neg hq, if_neg hq]
  · unfold setCell
    rw [if_neg hp]

theorem getCell_setCell_self (g : Grid) (p : Pos) (v : Cell) (h : ValidPos g p) :
    getCell (setCell g p v) p = v := by
  obtain ⟨h1, h2, h3, h4⟩ := h
  rw [setCell_pos g p v ⟨h1, h3⟩, getCell_pos _ p ⟨h1, h3⟩, list_getD_set_self, if_pos h2,
    list_getD_set_self, if_pos h4]

theorem rowsOf_setCell (g : Grid) (p : Pos) (v : Cell) :
    rowsOf (setCell g p v) = rowsOf g := by
  unfold rowsOf setCell
  split
  · exact List.length_set ..
  · rfl

theorem rowLen_setCell (g : Grid) (p : Pos) (v : Cell) (i : Nat) :
    ((setCell g p v).getD i []).length = (g.getD i []).length := by
  unfold setCell
  split
  · by_cases h1 : p.1.toNat = i
    · subst h1
      rw [list_getD_set_self]
      by_cases hl : p.1.toNat < g.length
      · rw [if_pos hl, List.length_set]
      · rw [if_neg hl]
        have : g.getD p.1.toNat [] = [] := by
          rw [List.getD_eq_getElem?_getD]
          have : g[p.1.toNat]? = none := by rw [List.getElem?_eq_none_iff]; omega
          rw [this]
          rfl
        rw [this]
    · rw [list_getD_set_ne _ _ _ _ _ h1]
  · rfl

theorem colsOf_eq_rowLen (g : Grid) : colsOf g = (g.getD 0 []).length := by
  cases g <;> rfl

theorem colsOf_setCell (g : Grid) (p : Pos) (v : Cell) :
    colsOf (setCell g p v) = colsOf g := by
  rw [colsOf_eq_rowLen, colsOf_eq_rowLen, rowLen_setCell]

theorem ValidPos_setCell (g : Grid) (p q : Pos) (v : Cell) :
    ValidPos (setCell g p v) q ↔ ValidPos g q := by
  unfold ValidPos
  have h1 : (setCell g p v).length = g.length := rowsOf_setCell g p v
  rw [h1, rowLen_setCell]

theorem mem_listSwap {α : Type _} {l : List α} {i j : Nat} {x : α}
    (h : x ∈ listSwap l i j) : x ∈ l := by
  unfold listSwap at h
  split at h
  · next a b ha hb =>
    rcases List.mem_or_eq_of_mem_set h with h1 | h1
    · rcases List.mem_or_eq_of_mem_set h1 with h2 | h2
      · exact h2
      · subst h2
        exact List.getElem?_mem hb
    · subst h1
      exact List.getElem?_mem ha
  · exact h

theorem length_listSwap {α : Type _} (l : List α) (i j : Nat) :
    (listSwap l i j).length = l.length := by
  unfold listSwap
  split
  · rw [List.length_set, List.length_set]
  · rfl

theorem mem_shuffleGo {α : Type _} {l : List α} {n : Nat} {rng : Rng} {x : α}
    (h : x ∈ (shuffleGo l n rng).1) : x ∈ l := by
  induction n generalizing l rng with
  | zero => exact h
  | succ i ih =>
    unfold shuffleGo at h
    exact mem_listSwap (ih h)

theorem length_shuffleGo {α : Type _} (l : List α) (n : Nat) (rng : Rng) :
    (shuffleGo l n rng).1.length = l.length := by
  induction n generalizing l rng with
  | zero => rfl
  | succ i ih =>
    unfold shuffleGo
    rw [ih, length_listSwap]

theorem mem_shuffled {α : Type _} {l : List α} {rng : Rng} {x : α}
    (h : x ∈ (shuffled l rng).1) : x ∈ l :=
  mem_shuffleGo h

theorem length_shuffled {α : Type _} (l : List α) (rng : Rng) :
    (shuffled l rng).1.length = l.length :=
  length_shuffleGo l (l.length - 1) rng

theorem shuffled_nil {α : Type _} (rng : Rng) : shuffled ([] : List α) rng = ([], rng) := rfl

theorem headD_mem_shuffled {α : Type _} {l : List α} {rng : Rng} (d : α) (h : l ≠ []) :
    (shuffled l rng).1.headD d ∈ l := by
  apply @mem_shuffled α l rng
  have hlen : (shuffled l rng).1.length = l.length := length_shuffled l rng
  have hne : (shuffled l rng).1 ≠ [] := by
    intro hc
    apply h
    rw [hc] at hlen
    exact List.length_eq_zero.mp hlen.symm
  cases hsh : (shuffled l rng).1 with
  | nil => exact absurd hsh hne
  | cons a t =>
    simp [hsh]

/-- Writing a batch of cells leaves unrelated positions untouched. -/
theorem foldl_setCell_getCell_notMem (val : Pos → Cell) :
    ∀ (l : List Pos) (g0 : Grid) (q : Pos), (∀ p ∈ l, p ≠ q) →
      getCell (l.foldl (fun acc p => setCell acc p (val p)) g0) q = getCell g0 q := by
  intro l
  induction l with
  | nil => intro g0 q _; rfl
  | cons a t ih =>
    intro g0 q hp
    rw [List.foldl_cons, ih _ q fun p hmem => hp p (List.mem_cons_of_mem a hmem),
      getCell_setCell_ne _ _ _ _ (hp a (List.mem_cons_self a t))]

/-- Writing a batch of cells makes a listed position hold its written value. -/
theorem foldl_setCell_getCell_mem (val : Pos → Cell) :
    ∀ (l : List Pos) (g0 : Grid) (q : Pos), q ∈ l → ValidPos g0 q →
      getCell (l.foldl (fun acc p => setCell acc p (val p)) g0) q = val q := by
  intro l
  induction l with
  | nil => intro g0 q hq _; exact absurd hq (List.not_mem_nil q)
  | cons a t ih =>
    intro g0 q hq hv
    rw [List.foldl_cons]
    by_cases hqt : q ∈ t
    · exact ih _ q hqt ((ValidPos_setCell g0 a q (val a)).mpr hv)
    · have haq : a = q := by
        rcases List.mem_cons.mp hq with h | h
        · exact h.symm
        · exact absurd h hqt
      subst haq
      rw [foldl_setCell_getCell_notMem val t _ a fun p hp hpa => hqt (hpa ▸ hp),
        getCell_setCell_self _ _ _ hv]

theorem rowsOf_foldl_setCell (val : Pos → Cell) (l : List Pos) (g0 : Grid) :
    rowsOf (l.foldl (fun acc p => setCell acc p (val p)) g0) = rowsOf g0 := by
  induction l generalizing g0 with
  | nil => rfl
  | cons a t ih => rw [List.foldl_cons, ih, rowsOf_setCell]

theorem colsOf_foldl_setCell (val : Pos → Cell) (l : List Pos) (g0 : Grid) :
    colsOf (l.foldl (fun acc p => setCell acc p (val p)) g0) = colsOf g0 := by
  induction l generalizing g0 with
  | nil => rfl
  | cons a t ih => rw [List.foldl_cons, ih, colsOf_setCell]

/-- Every intent points at a cell that is empty or dot-like in the grid the
scan read, and carries the scanning cell's team. -/
def intentTargetOK (g : Grid) (it : Intent) : Prop :=
  (getCell g (it.r, it.c)).state = CellState.empty ∨ isDotLike (getCell g (it.r, it.c)) = true

theorem tryDirs_some (g : Grid) (r c : Int) (team : Option Team) :
    ∀ (dirs : List Dir) (it : Intent), tryDirs g r c team dirs = some it →
      intentTargetOK g it ∧ it.team = team := by
  intro dirs
  induction dirs with
  | nil =>
    intro it h
    exact absurd h (by simp [tryDirs])
  | cons d rest ih =>
    intro it h
    unfold tryDirs at h
    simp only at h
    split at h
    · split at h
      · next hemp =>
        cases h
        exact ⟨Or.inl hemp, rfl⟩
      · split at h
        · split at h
          · next hbeyond =>
            cases h
            exact ⟨Or.inl hbeyond.2, rfl⟩
          · split at h
            · next hdl _ _ =>
              cases h
              exact ⟨Or.inr hdl, rfl⟩
            · exact ih it h
        · exact ih it h
    · exact ih it h

theorem scanFold_prop (g : Grid) (P : Intent → Prop)
    (hP : ∀ (p : Pos) (dirs : List Dir) (it : Intent), isDotLike (getCell g p) = true →
      tryDirs g p.1 p.2 (getCell g p).team dirs = some it → P it) :
    ∀ (l : List Pos) (st : List Intent × Rng), (∀ it ∈ st.1, P it) →
      ∀ it ∈ (l.foldl (scanStep g) st).1, P it := by
  intro l
  induction l with
  | nil => intro st hst it hit; exact hst it hit
  | cons a t ih =>
    intro st hst it hit
    rw [List.foldl_cons] at hit
    refine ih (scanStep g st a) ?_ it hit
    intro it' hit'
    unfold scanStep at hit'
    split at hit'
    · next hdl =>
      simp only at hit'
      split at hit'
      · next it2 htry =>
        simp only at hit'
        rcases List.mem_append.mp hit' with h1 | h1
        · exact hst it' h1
        · have : it' = it2 := List.mem_singleton.mp h1
          subst this
          exact hP a _ it' hdl htry
      · exact hst it' hit'
    · exact hst it' hit'

theorem replicationIntents_prop (g : Grid) (rng : Rng) (it : Intent)
    (hit : it ∈ (replicationIntents g rng).1) : intentTargetOK g it := by
  have := scanFold_prop g (intentTargetOK g)
    (fun p dirs it' _ htry => (tryDirs_some g p.1 p.2 (getCell g p).team dirs it' htry).1)
    (positions (rowsOf g) (colsOf g)) ([], rng) (by intro it' h; exact absurd h (List.not_mem_nil it'))
  exact this it hit

/-- `applyIntent` only writes the intent's target cell. -/
theorem applyIntent_getCell_ne (g : Grid) (it : Intent) (q : Pos)
    (h : (it.r, it.c) ≠ q) : getCell (applyIntent g it) q = getCell g q := by
  unfold applyIntent
  dsimp only
  split
  · exact getCell_setCell_ne g _ q _ h
  · split
    · split
      · exact getCell_setCell_ne g _ q _ h
      · exact getCell_setCell_ne g _ q _ h
    · rfl

theorem foldl_applyIntent_getCell_ne (q : Pos) :
    ∀ (l : List Intent) (g0 : Grid), (∀ it ∈ l, ((it.r : Int), (it.c : Int)) ≠ q) →
      getCell (l.foldl applyIntent g0) q = getCell g0 q := by
  intro l
  induction l with
  | nil => intro g0 _; rfl
  | cons a t ih =>
    intro g0 hl
    rw [List.foldl_cons, ih _ fun it hmem => hl it (List.mem_cons_of_mem a hmem),
      applyIntent_getCell_ne _ _ _ (hl a (List.mem_cons_self a t))]

/-! Shared concrete cells and boards used in witnesses and counterexamples. -/

def cBlueDot : Cell := ⟨CellState.dot, some Team.blue, some 0⟩

def cGreenDot : Cell := ⟨CellState.dot, some Team.green, some 0⟩

def cBlueProducer : Cell := ⟨CellState.producer, some Team.blue, some 0⟩

def cBlueBlock : Cell := ⟨CellState.block, some Team.blue, none⟩

def cGreenBlock : Cell := ⟨CellState.block, some Team.green, none⟩

def cGreenHot : Cell := ⟨CellState.bombHot, some Team.green, none⟩

/-! ## Claim C1 -/

/-- C1 counterexample: on the board `[blue dot, green dot, empty]`, the blue
dot at (0,0) tries east; the immediate neighbor (0,1) is an opposing-team
dot, yet the emitted intent is a spawn at the cell beyond, (0,2) — not an
attack on (0,1).  This falsifies the claim that an enemy neighbor always
yields an attack intent on that neighbor and that the beyond-cell check is
done only for own-team neighbors. -/
theorem C1_counterexample :
    (getCell [[cBlueDot, cGreenDot, emptyCell]] (0, 1)).state = CellState.dot ∧
      (getCell [[cBlueDot, cGreenDot, emptyCell]] (0, 1)).team = some Team.green ∧
      tryDirs [[cBlueDot, cGreenDot, emptyCell]] 0 0 (some Team.blue) [(0, 1)] =
        some ⟨0, 2, some Team.blue⟩ ∧
      tryDirs [[cBlueDot, cGreenDot, emptyCell]] 0 0 (some Team.blue) [(0, 1)] ≠
        some ⟨0, 1, some Team.blue⟩ := by
  decide

/-- C1 (amended): when a tried direction's immediate cardinal neighbor is a
dot/producer of EITHER team, the scan first checks the cell beyond in the
same direction: if it is in bounds and empty, a spawn intent at the beyond
cell is emitted and the cell stops; only otherwise, if the neighbor belongs
to the opposing team, an attack intent targeting the neighbor is emitted. -/
theorem C1_amended (g : Grid) (r c : Int) (team : Option Team) (d : Dir) (rest : List Dir)
    (hin : inBounds (r + d.1) (c + d.2) (rowsOf g) (colsOf g) = true)
    (hdl : isDotLike (getCell g (r + d.1, c + d.2)) = true) :
    (inBounds (r + d.1 + d.1) (c + d.2 + d.2) (rowsOf g) (colsOf g) = true ∧
        (getCell g (r + d.1 + d.1, c + d.2 + d.2)).state = CellState.empty →
      tryDirs g r c team (d :: rest) = some ⟨r + d.1 + d.1, c + d.2 + d.2, team⟩) ∧
    (¬(inBounds (r + d.1 + d.1) (c + d.2 + d.2) (rowsOf g) (colsOf g) = true ∧
        (getCell g (r + d.1 + d.1, c + d.2 + d.2)).state = CellState.empty) →
      (getCell g (r + d.1, c + d.2)).team ≠ team →
      tryDirs g r c team (d :: rest) = some ⟨r + d.1, c + d.2, team⟩) := by
  have hne : ¬ (getCell g (r + d.1, c + d.2)).state = CellState.empty := by
    intro hc
    unfold isDotLike at hdl
    rw [hc] at hdl
    simp at hdl
  constructor
  · intro hbeyond
    unfold tryDirs
    dsimp only
    rw [if_pos hin, if_neg hne, if_pos hdl, if_pos hbeyond]
  · intro hbeyond hteam
    unfold tryDirs
    dsimp only
    rw [if_pos hin, if_neg hne, if_pos hdl, if_neg hbeyond, if_pos hteam]

/-- C1 amended, witnessed on the counterexample board: the beyond cell is
empty, so the blue dot's intent is the line-extension spawn at (0,2). -/
theorem C1_amended_witness :
    (inBounds (0 + 0) (0 + 1) (rowsOf [[cBlueDot, cGreenDot, emptyCell]])
        (colsOf [[cBlueDot, cGreenDot, emptyCell]]) = true ∧
      isDotLike (getCell [[cBlueDot, cGreenDot, emptyCell]] (0 + 0, 0 + 1)) = true) ∧
    tryDirs [[cBlueDot, cGreenDot, emptyCell]] 0 0 (some Team.blue) [(0, 1)] =
      some ⟨0 + 0 + 0, 0 + 1 + 1, some Team.blue⟩ := by
  refine ⟨⟨by decide, by decide⟩, ?_⟩
  exact (C1_amended [[cBlueDot, cGreenDot, emptyCell]] 0 0 (some Team.blue) (0, 1) []
    (by decide) (by decide)).1 ⟨by decide, by decide⟩

/-! ## Claim C2 -/

/-- Board for the C2 counterexample: a hot green bomb, a blue dot in its
blast, then two empty cells. -/
def exG2 : Grid := [[cGreenHot, cBlueDot, emptyCell, emptyCell]]

/-- Stream for the C2 counterexample: the spill draw and the survival draw
both come out at 1/2 (no spill, no survival). -/
def exRng2 : Rng := ⟨[500, 500, 0, 0, 0]⟩

/-- C2 counterexample: the blue dot at (0,1) is destroyed by the blast, yet
the replication scan still reads it from the pre-tick grid and spawns a
blue dot at (0,2).  `stepGridSpecC2`, the spec-described variant whose scan
reads the post-detonation grid, leaves the board all empty, so the two
disagree: the scan does NOT base its intents on the post-detonation
state. -/
theorem C2_counterexample :
    getCell (stepGrid exG2 exRng2).grid (0, 2) = ⟨CellState.dot, some Team.blue, some 0⟩ ∧
      getCell (stepGridSpecC2 exG2 exRng2).grid (0, 2) = emptyCell ∧
      (stepGrid exG2 exRng2).grid ≠ (stepGridSpecC2 exG2 exRng2).grid := by
  decide

/-- C2 (amended): the bomb-arming scan, the bomb state-transition scan AND
the phase-3 replication scan all read the original pre-tick grid; only
intent resolution and the line-of-five phase read the mutated grid.
Consequently `stepGrid` coincides with the spec-described variant exactly
when phases 1-2 do nothing: on a grid with no armed candidates and no
armed/hot bombs the two functions agree. -/
theorem C2_amended (g : Grid) (rng : Rng)
    (h1 : armedCells g = []) (h2 : hotCells g = []) (h3 : explodeCells g = []) :
    stepGrid g rng = stepGridSpecC2 g rng := by
  have hb : bombPhase g rng = (g, [], rng) := by
    unfold bombPhase applyArm applyHot gatherBlasts applyBlasts
    rw [h1, h2, h3]
    rfl
  unfold stepGrid stepGridSpecC2 intentPhase intentPhaseSpecC2
  rw [hb]

/-- C2 amended, witnessed on a bomb-free one-dot board. -/
theorem C2_amended_witness :
    (armedCells [[cBlueDot, emptyCell]] = [] ∧ hotCells [[cBlueDot, emptyCell]] = [] ∧
      explodeCells [[cBlueDot, emptyCell]] = []) ∧
    stepGrid [[cBlueDot, emptyCell]] ⟨[0, 0, 0]⟩ =
      stepGridSpecC2 [[cBlueDot, emptyCell]] ⟨[0, 0, 0]⟩ := by
  refine ⟨⟨by decide, by decide, by decide⟩, ?_⟩
  exact C2_amended [[cBlueDot, emptyCell]] ⟨[0, 0, 0]⟩ (by decide) (by decide) (by decide)

/-! ## Claim C3 -/

def chebyDist (p q : Pos) : Nat := max (p.1 - q.1).natAbs (p.2 - q.2).natAbs

def manhattanDist (p q : Pos) : Nat := (p.1 - q.1).natAbs + (p.2 - q.2).natAbs

/-- C3 counterexample: the spillover candidate (6,6) of a bomb at (5,5) is a
diagonal neighbour at Chebyshev distance 1 — it lies INSIDE the 3×3
neighbourhood, contradicting the claim that every spillover candidate is at
distance 2 outside the 3×3 box. -/
theorem C3_counterexample :
    (6, 6) ∈ spillCandidates 5 5 ∧ (6, 6) ∈ box3 5 5 ∧
      chebyDist (6, 6) (5, 5) = 1 ∧ ¬ chebyDist (6, 6) (5, 5) = 2 := by
  decide

theorem spillFold_subset (rows cols : Nat) :
    ∀ (cands acc : List Pos) (rng : Rng) (p : Pos),
      p ∈ (cands.foldl (spillStep rows cols) (acc, rng)).1 → p ∈ acc ∨ p ∈ cands := by
  intro cands
  induction cands with
  | nil => intro acc rng p h; exact Or.inl h
  | cons a t ih =>
    intro acc rng p h
    rw [List.foldl_cons] at h
    unfold spillStep at h
    split at h
    · dsimp only at h
      split at h
      · rcases ih _ _ p h with h1 | h1
        · rcases List.mem_append.mp h1 with h2 | h2
          · exact Or.inl h2
          · exact Or.inr (List.mem_cons.mpr (Or.inl (List.mem_singleton.mp h2)))
        · exact Or.inr (List.mem_cons_of_mem a h1)
      · rcases ih _ _ p h with h1 | h1
        · exact Or.inl h1
        · exact Or.inr (List.mem_cons_of_mem a h1)
    · rcases ih _ _ p h with h1 | h1
      · exact Or.inl h1
      · exact Or.inr (List.mem_cons_of_mem a h1)

theorem spillFold_acc_subset (rows cols : Nat) :
    ∀ (cands acc : List Pos) (rng : Rng) (p : Pos),
      p ∈ acc → p ∈ (cands.foldl (spillStep rows cols) (acc, rng)).1 := by
  intro cands
  induction cands with
  | nil => intro acc rng p h; exact h
  | cons a t ih =>
    intro acc rng p h
    rw [List.foldl_cons]
    unfold spillStep
    split
    · dsimp only
      split
      · exact ih _ _ p (List.mem_append.mpr (Or.inl h))
      · exact ih _ _ p h
    · exact ih _ _ p h

theorem spillFold_allGE (rows cols : Nat) :
    ∀ (cands acc : List Pos) (rng : Rng),
      cands.length ≤ rng.vals.length → (∀ q ∈ rng.vals, SPILL_CHANCE ≤ q) →
      (cands.foldl (spillStep rows cols) (acc, rng)).1 = acc := by
  intro cands
  induction cands with
  | nil => intro acc rng _ _; rfl
  | cons a t ih =>
    intro acc rng hlen hge
    rw [List.foldl_cons]
    unfold spillStep
    split
    · cases rng with
      | mk vals =>
        cases vals with
        | nil => simp at hlen
        | cons v vs =>
          have hv : SPILL_CHANCE ≤ v := hge v (List.mem_cons_self v vs)
          dsimp only [Rng.next]
          rw [if_neg (by omega)]
          exact ih acc ⟨vs⟩ (by simpa using Nat.le_of_succ_le_succ (by simpa using hlen))
            fun q hq => hge q (List.mem_cons_of_mem v hq)
    · exact ih acc rng (Nat.le_trans (Nat.le_succ _) hlen) hge

theorem spillFold_allLT (rows cols : Nat) :
    ∀ (cands acc : List Pos) (rng : Rng),
      (∀ q ∈ rng.vals, q < SPILL_CHANCE) →
      (cands.foldl (spillStep rows cols) (acc, rng)).1 =
        acc ++ cands.filter fun p => inBounds p.1 p.2 rows cols := by
  intro cands
  induction cands with
  | nil => intro acc rng _; simp
  | cons a t ih =>
    intro acc rng hlt
    rw [List.foldl_cons]
    unfold spillStep
    by_cases hin : inBounds a.1 a.2 rows cols = true
    · have hf : List.filter (fun p => inBounds p.1 p.2 rows cols) (a :: t) =
          a :: List.filter (fun p => inBounds p.1 p.2 rows cols) t := by
        simp only [List.filter_cons]
        rw [if_pos (by simpa using hin)]
      rw [if_pos hin, hf]
      cases rng with
      | mk vals =>
        cases vals with
        | nil =>
          dsimp only [Rng.next]
          rw [if_pos (by decide)]
          have h := ih (acc ++ [a]) ⟨[]⟩ (by intro q hq; simp at hq)
          rw [List.append_assoc] at h
          exact h
        | cons v vs =>
          have hv : v < SPILL_CHANCE := hlt v (List.mem_cons_self v vs)
          dsimp only [Rng.next]
          rw [if_pos hv]
          have h := ih (acc ++ [a]) ⟨vs⟩ fun q hq => hlt q (List.mem_cons_of_mem v hq)
          rw [List.append_assoc] at h
          exact h
    · have hf : List.filter (fun p => inBounds p.1 p.2 rows cols) (a :: t) =
          List.filter (fun p => inBounds p.1 p.2 rows cols) t := by
        simp only [List.filter_cons]
        rw [if_neg (by simpa using hin)]
      rw [if_neg hin, hf]
      exact ih acc rng hlt

/-- C3 (amended): the blast footprint of a bomb equals the in-bounds 3×3
box plus those in-bounds spillover candidates whose draw is below 0.25.
The eight candidates all sit at Manhattan distance 2: four two steps away
cardinally (Chebyshev distance 2), but the four diagonal ones at Chebyshev
distance 1, INSIDE the 3×3 box — so a kept diagonal spillover duplicates a
box cell instead of extending the footprint.  If every available draw is
at least 0.25 no spillover is kept; if every draw is below 0.25 all
in-bounds candidates are kept. -/
theorem C3_amended (r c : Int) (rows cols : Nat) (rng : Rng) :
    (∀ p, p ∈ (collectBlastCells r c rows cols rng).1 →
        (p ∈ box3 r c ∧ inBounds p.1 p.2 rows cols = true) ∨ p ∈ spillCandidates r c) ∧
    (∀ p, p ∈ box3 r c → inBounds p.1 p.2 rows cols = true →
        p ∈ (collectBlastCells r c rows cols rng).1) ∧
    (∀ p ∈ spillCandidates r c, manhattanDist p (r, c) = 2) ∧
    (chebyDist (r + 1, c + 1) (r, c) = 1 ∧ (r + 1, c + 1) ∈ spillCandidates r c ∧
      (r + 1, c + 1) ∈ box3 r c) ∧
    (8 ≤ rng.vals.length → (∀ q ∈ rng.vals, SPILL_CHANCE ≤ q) →
      (collectBlastCells r c rows cols rng).1 =
        (box3 r c).filter fun p => inBounds p.1 p.2 rows cols) ∧
    ((∀ q ∈ rng.vals, q < SPILL_CHANCE) →
      (collectBlastCells r c rows cols rng).1 =
        ((box3 r c).filter fun p => inBounds p.1 p.2 rows cols) ++
          (spillCandidates r c).filter fun p => inBounds p.1 p.2 rows cols) := by
  refine ⟨?_, ?_, ?_, ?_, ?_, ?_⟩
  · intro p hp
    unfold collectBlastCells at hp
    rcases spillFold_subset rows cols _ _ _ p hp with h1 | h1
    · exact Or.inl ⟨(List.mem_filter.mp h1).1, (List.mem_filter.mp h1).2⟩
    · exact Or.inr h1
  · intro p hbox hin
    unfold collectBlastCells
    exact spillFold_acc_subset rows cols _ _ _ p (List.mem_filter.mpr ⟨hbox, hin⟩)
  · intro p hp
    unfold spillCandidates at hp
    simp only [List.mem_cons, List.not_mem_nil, or_false] at hp
    unfold manhattanDist
    rcases hp with rfl | rfl | rfl | rfl | rfl | rfl | rfl | rfl <;> (dsimp only; omega)
  · refine ⟨?_, ?_, ?_⟩
    · unfold chebyDist
      dsimp only
      have h1 : (r + 1 - r).natAbs = 1 := by omega
      have h2 : (c + 1 - c).natAbs = 1 := by omega
      rw [h1, h2]
      exact max_self 1
    · unfold spillCandidates
      simp
    · have hbox : box3 r c =
          [(r - 1, c - 1), (r - 1, c), (r - 1, c + 1), (r, c - 1), (r, c), (r, c + 1),
            (r + 1, c - 1), (r + 1, c), (r + 1, c + 1)] := by
        unfold box3
        simp only [List.range_succ, List.range_zero, List.nil_append, List.cons_append,
          List.flatMap_cons, List.flatMap_nil, List.map_cons, List.map_nil, List.append_nil]
        norm_num
        refine ⟨by omega, by omega, by omega⟩
      rw [hbox]
      simp
  · intro hlen hge
    unfold collectBlastCells
    exact spillFold_allGE rows cols _ _ rng (by unfold spillCandidates; simp; omega) hge
  · intro hlt
    unfold collectBlastCells
    exact spillFold_allLT rows cols _ _ rng hlt

/-- C3 amended, witnessed: with eight draws of 0.3 no spillover is kept, so
a bomb at (5,5) on the 24×24 board blasts exactly its 3×3 box. -/
theorem C3_amended_witness :
    (8 ≤ (Rng.mk [300, 300, 300, 300, 300, 300, 300, 300]).vals.length ∧
      ∀ q ∈ (Rng.mk [300, 300, 300, 300, 300, 300, 300, 300]).vals, SPILL_CHANCE ≤ q) ∧
    (collectBlastCells 5 5 24 24 ⟨[300, 300, 300, 300, 300, 300, 300, 300]⟩).1 =
      (box3 5 5).filter fun p => inBounds p.1 p.2 24 24 := by
  refine ⟨⟨by decide, by decide⟩, ?_⟩
  exact (C3_amended 5 5 24 24 ⟨[300, 300, 300, 300, 300, 300, 300, 300]⟩).2.2.2.2.1
    (by decide) (by decide)

/-! ## Claim C4 -/

theorem mem_positions {rows cols : Nat} {p : Pos} :
    p ∈ positions rows cols ↔ inBounds p.1 p.2 rows cols = true := by
  obtain ⟨p1, p2⟩ := p
  constructor
  · intro h
    unfold positions at h
    rw [List.mem_flatMap] at h
    obtain ⟨a, ha, hmem⟩ := h
    rw [List.mem_map] at hmem
    obtain ⟨b, hb, heq⟩ := hmem
    rw [List.mem_range] at ha hb
    cases heq
    unfold inBounds
    simp only [Bool.and_eq_true, decide_eq_true_eq, Int.ofNat_eq_coe]
    refine ⟨⟨⟨by omega, by omega⟩, by omega⟩, by omega⟩
  · intro h
    unfold inBounds at h
    simp only [Bool.and_eq_true, decide_eq_true_eq] at h
    obtain ⟨⟨⟨h1, h2⟩, h3⟩, h4⟩ := h
    unfold positions
    rw [List.mem_flatMap]
    refine ⟨p1.toNat, ?_, ?_⟩
    · rw [List.mem_range]
      omega
    · rw [List.mem_map]
      refine ⟨p2.toNat, ?_, ?_⟩
      · rw [List.mem_range]
        omega
      · simp only [Prod.mk.injEq, Int.ofNat_eq_coe]
        constructor <;> omega

/-- A grid whose rows all have the advertised number of columns. -/
def Rect (g : Grid) : Prop :=
  ∀ i, i < rowsOf g → (g.getD i []).length = colsOf g

instance (g : Grid) : Decidable (Rect g) := by
  unfold Rect; infer_instance

theorem ValidPos_of_inBounds {g : Grid} {p : Pos} (hrect : Rect g)
    (hin : inBounds p.1 p.2 (rowsOf g) (colsOf g) = true) : ValidPos g p := by
  unfold inBounds at hin
  simp only [Bool.and_eq_true, decide_eq_true_eq] at hin
  obtain ⟨⟨⟨h1, h2⟩, h3⟩, h4⟩ := hin
  have hr : p.1.toNat < rowsOf g := by omega
  refine ⟨h1, hr, h3, ?_⟩
  rw [hrect p.1.toNat hr]
  omega

theorem ValidPos_foldl_setCell (val : Pos → Cell) (l : List Pos) (g0 : Grid) (q : Pos) :
    ValidPos (l.foldl (fun acc p => setCell acc p (val p)) g0) q ↔ ValidPos g0 q := by
  induction l generalizing g0 with
  | nil => exact Iff.rfl
  | cons a t ih => rw [List.foldl_cons, ih, ValidPos_setCell]

/-- Board for the C4 counterexample: the blue dot at (0,1) has four green
blocks in its 8-neighbourhood (it arms this tick), and the green dot at
(0,0) attacks it. -/
def exG4 : Grid :=
  [[cGreenDot, cBlueDot, cGreenBlock, emptyCell],
   [cGreenBlock, cGreenBlock, cGreenBlock, emptyCell]]

/-- C4 counterexample: (0,1) is marked bomb-armed in this step (it is in
`armedCells`), yet the very same step its attacker captures it (a bomb
defends with health 0), and the output grid holds a green DOT at (0,1) —
a cell in a bomb state during the step ends the step as a dot. -/
theorem C4_counterexample :
    armedCells exG4 = [(0, 1)] ∧
      getCell (stepGrid exG4 ⟨[0, 0, 0, 0, 0, 0, 0]⟩).grid (0, 1) =
        ⟨CellState.dot, some Team.green, some 0⟩ := by
  decide

theorem box3_eq (r c : Int) : box3 r c =
    [(r - 1, c - 1), (r - 1, c), (r - 1, c + 1), (r, c - 1), (r, c), (r, c + 1),
      (r + 1, c - 1), (r + 1, c), (r + 1, c + 1)] := by
  unfold box3
  simp only [List.range_succ, List.range_zero, List.nil_append, List.cons_append,
    List.flatMap_cons, List.flatMap_nil, List.map_cons, List.map_nil, List.append_nil]
  norm_num
  refine ⟨by omega, by omega, by omega⟩

theorem center_mem_box3 (r c : Int) : (r, c) ∈ box3 r c := by
  rw [box3_eq]
  simp

/-- The exploding bomb's own cell is always part of its blast list. -/
theorem center_mem_collectBlastCells (r c : Int) (rows cols : Nat) (rng : Rng)
    (h : inBounds r c rows cols = true) :
    (r, c) ∈ (collectBlastCells r c rows cols rng).1 := by
  unfold collectBlastCells
  exact spillFold_acc_subset rows cols _ _ rng (r, c)
    (List.mem_filter.mpr ⟨center_mem_box3 r c, h⟩)

theorem mem_gatherBlasts (g : Grid) (rng : Rng) (p : Pos)
    (hp : p ∈ explodeCells g) (hin : inBounds p.1 p.2 (rowsOf g) (colsOf g) = true) :
    p ∈ (gatherBlasts g rng).1 := by
  obtain ⟨p1, p2⟩ := p
  unfold gatherBlasts
  suffices h : ∀ (l : List Pos) (st : List Pos × Rng), ((p1, p2) ∈ st.1 ∨ (p1, p2) ∈ l) →
      (p1, p2) ∈ ((l.foldl (fun st q =>
        (st.1 ++ (collectBlastCells q.1 q.2 (rowsOf g) (colsOf g) st.2).1,
          (collectBlastCells q.1 q.2 (rowsOf g) (colsOf g) st.2).2)) st).1) by
    exact h (explodeCells g) ([], rng) (Or.inr hp)
  intro l
  induction l with
  | nil =>
    intro st h
    rcases h with h | h
    · exact h
    · exact absurd h (List.not_mem_nil (p1, p2))
  | cons a t ih =>
    intro st h
    rw [List.foldl_cons]
    rcases h with h | h
    · exact ih _ (Or.inl (List.mem_append_left _ h))
    · rcases List.mem_cons.mp h with h | h
      · subst h
        exact ih _ (Or.inl (List.mem_append_right _
          (center_mem_collectBlastCells p1 p2 (rowsOf g) (colsOf g) _ hin)))
      · exact ih _ (Or.inr h)

/-- Blast destruction only ever writes empty cells, so a cell emptied by
the blast stays empty for the rest of the destruction pass. -/
theorem applyBlasts_keepEmpty (rows cols : Nat) (p : Pos) :
    ∀ (cells : List Pos) (next : Grid) (rng : Rng), ValidPos next p →
      getCell next p = emptyCell →
      getCell (applyBlasts next cells rows cols rng).1 p = emptyCell := by
  intro cells
  induction cells with
  | nil => intro next rng _ he; exact he
  | cons a t ih =>
    intro next rng hv he
    unfold applyBlasts
    rw [List.foldl_cons]
    dsimp only
    by_cases hab : a = p
    · subst hab
      split
      · split
        · exact ih _ _ ((ValidPos_setCell _ _ _ _).mpr hv) (getCell_setCell_self _ _ _ hv)
        · split
          · exact ih _ _ hv he
          · exact ih _ _ ((ValidPos_setCell _ _ _ _).mpr hv) (getCell_setCell_self _ _ _ hv)
      · exact ih _ _ hv he
    · split
      · split
        · exact ih _ _ ((ValidPos_setCell _ _ _ _).mpr hv)
            (by rw [getCell_setCell_ne _ _ _ _ hab]; exact he)
        · split
          · exact ih _ _ hv he
          · exact ih _ _ ((ValidPos_setCell _ _ _ _).mpr hv)
              (by rw [getCell_setCell_ne _ _ _ _ hab]; exact he)
      · exact ih _ _ hv he

/-- A bomb cell listed in the blast pass is destroyed unconditionally:
it never takes the survival roll, and no later blast write revives it. -/
theorem applyBlasts_destroys (rows cols : Nat) (p : Pos)
    (hin : inBounds p.1 p.2 rows cols = true) :
    ∀ (cells : List Pos) (next : Grid) (rng : Rng), ValidPos next p →
      ((getCell next p).state = CellState.bombArmed ∨
        (getCell next p).state = CellState.bombHot) →
      p ∈ cells →
      getCell (applyBlasts next cells rows cols rng).1 p = emptyCell := by
  intro cells
  induction cells with
  | nil => intro next rng _ _ hmem; exact absurd hmem (List.not_mem_nil p)
  | cons a t ih =>
    intro next rng hv hbomb hmem
    unfold applyBlasts
    rw [List.foldl_cons]
    dsimp only
    by_cases hap : a = p
    · subst hap
      rw [if_pos hin, if_pos hbomb]
      exact applyBlasts_keepEmpty rows cols a t _ rng
        ((ValidPos_setCell _ _ _ _).mpr hv) (getCell_setCell_self _ _ _ hv)
    · have hmem' : p ∈ t := by
        rcases List.mem_cons.mp hmem with h | h
        · exact absurd h.symm hap
        · exact h
      split
      · split
        · exact ih _ _ ((ValidPos_setCell _ _ _ _).mpr hv)
            (by rw [getCell_setCell_ne _ _ _ _ hap]; exact hbomb) hmem'
        · split
          · exact ih _ _ hv hbomb hmem'
          · exact ih _ _ ((ValidPos_setCell _ _ _ _).mpr hv)
              (by rw [getCell_setCell_ne _ _ _ _ hap]; exact hbomb) hmem'
      · exact ih _ _ hv hbomb hmem'

/-- With no line-of-five centers, the pressure phase is the identity. -/
theorem stepGrid_noCenters (g : Grid) (rng : Rng)
    (hnocent : lineFiveCenters (intentPhase g rng).1 = []) :
    (stepGrid g rng).grid = (intentPhase g rng).1 := by
  unfold stepGrid
  rcases htrip : intentPhase g rng with ⟨n4, b4, rng4⟩
  rw [htrip] at hnocent
  dsimp only at hnocent ⊢
  unfold resolveCenters
  rw [hnocent]
  rfl

/-- C4 (amended): the bomb track advances unconditionally only in the
absence of same-step interference.  (a) A cell bomb-armed in the pre-tick
grid is bomb-hot (same team) in the output provided no bomb explodes this
step and the line-of-five phase produces no centers.  (b) A cell bomb-hot
in the pre-tick grid explodes this step: it is in its own blast footprint
and, being a bomb, is destroyed without a survival roll, so (when the
line-of-five phase produces no centers) its cell is empty in the output.
A cell armed DURING the step enjoys no such guarantee: it can be captured
by an attack intent resolved the same step and end the step as an
opposing-team dot (see the counterexample), and blasts or bursts may
likewise destroy or overwrite bomb cells. -/
theorem C4_amended (g : Grid) (rng : Rng) (p : Pos) (hrect : Rect g)
    (hin : inBounds p.1 p.2 (rowsOf g) (colsOf g) = true) :
    ((getCell g p).state = CellState.bombArmed → explodeCells g = [] →
      lineFiveCenters (intentPhase g rng).1 = [] →
      getCell (stepGrid g rng).grid p = ⟨CellState.bombHot, (getCell g p).team, none⟩) ∧
    ((getCell g p).state = CellState.bombHot →
      lineFiveCenters (intentPhase g rng).1 = [] →
      getCell (stepGrid g rng).grid p = emptyCell) := by
  have hvalid : ValidPos g p := ValidPos_of_inBounds hrect hin
  constructor
  · intro harm hnohot hnocent
    -- the arming writes never touch p (it is not dot-like)
    have harmne : ∀ q ∈ armedCells g, q ≠ p := by
      intro q hq hqp
      subst hqp
      have := (List.mem_filter.mp hq).2
      simp only [Bool.and_eq_true] at this
      unfold isDotLike at this
      rw [harm] at this
      simp at this
    have hn1 : getCell (applyArm g g) p = getCell g p := by
      unfold applyArm
      exact foldl_setCell_getCell_notMem _ _ _ _ harmne
    have hvalid1 : ValidPos (applyArm g g) p := by
      unfold applyArm
      exact (ValidPos_foldl_setCell _ _ _ _).mpr hvalid
    -- the hot transition writes p
    have hmemhot : p ∈ hotCells g := by
      unfold hotCells
      exact List.mem_filter.mpr ⟨mem_positions.mpr hin, decide_eq_true harm⟩
    have hn2 : getCell (applyHot g (applyArm g g)) p =
        ⟨CellState.bombHot, (getCell g p).team, none⟩ := by
      unfold applyHot
      exact foldl_setCell_getCell_mem _ _ _ _ hmemhot hvalid1
    -- no explosions
    have hbomb : bombPhase g rng = (applyHot g (applyArm g g), [], rng) := by
      unfold bombPhase gatherBlasts applyBlasts
      rw [hnohot]
      rfl
    -- intents never target p
    have hitarget : ∀ it ∈ (replicationIntents g rng).1, ((it.r : Int), (it.c : Int)) ≠ p := by
      intro it hit hitp
      rcases replicationIntents_prop g rng it hit with h | h
      · rw [hitp, harm] at h
        cases h
      · rw [hitp] at h
        unfold isDotLike at h
        rw [harm] at h
        simp at h
    have hip : (intentPhase g rng).1 =
        (resolveIntents (applyHot g (applyArm g g)) (replicationIntents g rng).1
          (replicationIntents g rng).2).1 := by
      unfold intentPhase
      rw [hbomb]
    have hn4 : getCell (intentPhase g rng).1 p =
        ⟨CellState.bombHot, (getCell g p).team, none⟩ := by
      rw [hip]
      unfold resolveIntents
      dsimp only
      rw [foldl_applyIntent_getCell_ne p _ _
        fun it hit => hitarget it (mem_shuffled hit)]
      exact hn2
    rw [stepGrid_noCenters g rng hnocent]
    exact hn4
  · intro hhot hnocent
    -- neither arming nor the hot transition touches p (it is bomb-hot)
    have harmne : ∀ q ∈ armedCells g, q ≠ p := by
      intro q hq hqp
      subst hqp
      have := (List.mem_filter.mp hq).2
      simp only [Bool.and_eq_true] at this
      unfold isDotLike at this
      rw [hhot] at this
      simp at this
    have hhotne : ∀ q ∈ hotCells g, q ≠ p := by
      intro q hq hqp
      subst hqp
      have := (List.mem_filter.mp hq).2
      simp only [decide_eq_true_eq] at this
      rw [hhot] at this
      cases this
    have hn2 : getCell (applyHot g (applyArm g g)) p = getCell g p := by
      unfold applyHot applyArm
      rw [foldl_setCell_getCell_notMem _ _ _ _ hhotne,
        foldl_setCell_getCell_notMem _ _ _ _ harmne]
    have hv2 : ValidPos (applyHot g (applyArm g g)) p := by
      unfold applyHot applyArm
      exact (ValidPos_foldl_setCell _ _ _ _).mpr ((ValidPos_foldl_setCell _ _ _ _).mpr hvalid)
    have hpex : p ∈ explodeCells g := by
      unfold explodeCells
      exact List.mem_filter.mpr ⟨mem_positions.mpr hin, decide_eq_true hhot⟩
    -- the detonation pass empties p
    have hb1 : getCell (bombPhase g rng).1 p = emptyCell := by
      unfold bombPhase
      rcases hgb : gatherBlasts g rng with ⟨bc, rng1⟩
      dsimp only
      rcases hab : applyBlasts (applyHot g (applyArm g g)) bc (rowsOf g) (colsOf g) rng1
        with ⟨n3, rng2⟩
      dsimp only
      have hpbc : p ∈ bc := by
        have := mem_gatherBlasts g rng p hpex hin
        rw [hgb] at this
        exact this
      have := applyBlasts_destroys (rowsOf g) (colsOf g) p hin bc
        (applyHot g (applyArm g g)) rng1 hv2 (Or.inr (by rw [hn2]; exact hhot)) hpbc
      rw [hab] at this
      exact this
    -- intents never target p (it is neither empty nor dot-like pre-tick)
    have hitarget : ∀ rng', ∀ it ∈ (replicationIntents g rng').1,
        ((it.r : Int), (it.c : Int)) ≠ p := by
      intro rng' it hit hitp
      rcases replicationIntents_prop g rng' it hit with h | h
      · rw [hitp, hhot] at h
        cases h
      · rw [hitp] at h
        unfold isDotLike at h
        rw [hhot] at h
        simp at h
    have hmid : getCell (intentPhase g rng).1 p = emptyCell := by
      unfold intentPhase
      rcases hbp : bombPhase g rng with ⟨n3, b3, rng3⟩
      dsimp only
      rcases hri : replicationIntents g rng3 with ⟨its, rng4⟩
      dsimp only
      rcases hrsi : resolveIntents n3 its rng4 with ⟨n4, rng5⟩
      dsimp only
      have hn3 : getCell n3 p = emptyCell := by
        rw [hbp] at hb1
        exact hb1
      have hits : ∀ it ∈ its, ((it.r : Int), (it.c : Int)) ≠ p := by
        intro it hit
        exact hitarget rng3 it (by rw [hri]; exact hit)
      have hres : getCell (resolveIntents n3 its rng4).1 p = getCell n3 p := by
        unfold resolveIntents
        dsimp only
        exact foldl_applyIntent_getCell_ne p _ _ fun it hit => hits it (mem_shuffled hit)
      rw [hrsi] at hres
      rw [hres]
      exact hn3
    rw [stepGrid_noCenters g rng hnocent]
    exact hmid

/-- C4 amended, witnessed: a lone armed bomb on a 1×1 board is bomb-hot
after the step, and a lone hot bomb on a 1×1 board has exploded: its cell
is empty after the step. -/
theorem C4_amended_witness :
    (Rect [[Cell.mk CellState.bombArmed (some Team.blue) none]] ∧
      inBounds 0 0 (rowsOf [[Cell.mk CellState.bombArmed (some Team.blue) none]])
        (colsOf [[Cell.mk CellState.bombArmed (some Team.blue) none]]) = true ∧
      (getCell [[Cell.mk CellState.bombArmed (some Team.blue) none]] (0, 0)).state =
        CellState.bombArmed ∧
      explodeCells [[Cell.mk CellState.bombArmed (some Team.blue) none]] = [] ∧
      lineFiveCenters
        (intentPhase [[Cell.mk CellState.bombArmed (some Team.blue) none]] ⟨[]⟩).1 = []) ∧
    getCell (stepGrid [[Cell.mk CellState.bombArmed (some Team.blue) none]] ⟨[]⟩).grid (0, 0) =
      ⟨CellState.bombHot,
        (getCell [[Cell.mk CellState.bombArmed (some Team.blue) none]] (0, 0)).team, none⟩ ∧
    (Rect [[Cell.mk CellState.bombHot (some Team.green) none]] ∧
      inBounds 0 0 (rowsOf [[Cell.mk CellState.bombHot (some Team.green) none]])
        (colsOf [[Cell.mk CellState.bombHot (some Team.green) none]]) = true ∧
      (getCell [[Cell.mk CellState.bombHot (some Team.green) none]] (0, 0)).state =
        CellState.bombHot ∧
      lineFiveCenters
        (intentPhase [[Cell.mk CellState.bombHot (some Team.green) none]] ⟨[]⟩).1 = []) ∧
    getCell (stepGrid [[Cell.mk CellState.bombHot (some Team.green) none]] ⟨[]⟩).grid (0, 0) =
      emptyCell := by
  refine ⟨⟨by decide, by decide, by decide, by decide, by decide⟩, ?_,
    ⟨by decide, by decide, by decide, by decide⟩, ?_⟩
  · exact (C4_amended [[Cell.mk CellState.bombArmed (some Team.blue) none]] ⟨[]⟩ (0, 0)
      (by decide) (by decide)).1 (by decide) (by decide) (by decide)
  · exact (C4_amended [[Cell.mk CellState.bombHot (some Team.green) none]] ⟨[]⟩ (0, 0)
      (by decide) (by decide)).2 (by decide) (by decide)

/-! ## Claim C5 -/

/-- Board for the C5 counterexample: a vertical line of five blue
dot-likes in column 1 whose centre (2,1) is a PRODUCER; the two green
blocks shield (2,0) so only the centre can spawn there. -/
def exG5 : Grid :=
  [[emptyCell, cBlueDot, emptyCell],
   [cGreenBlock, cBlueDot, emptyCell],
   [emptyCell, cBlueProducer, emptyCell],
   [cGreenBlock, cBlueDot, emptyCell],
   [emptyCell, cBlueDot, emptyCell]]

/-- Stream for the C5 counterexample: draws 7-9 (the centre's direction
shuffle) come out at 0.5 so the centre spawns left, keeping (2,2) empty. -/
def exRng5 : Rng := ⟨[0, 0, 0, 0, 0, 0, 500, 500, 500, 0, 0, 0, 0, 0, 0, 0, 0, 0, 0]⟩

/-- C5 counterexample: (2,1) is the unique line-of-five pressure centre,
its cardinal neighbour (2,2) is empty at resolution time, and its occupant
is a producer — but the producer is NOT moved: the resolution step skips
any centre whose occupant is not a plain dot, so the cell is left exactly
as it was. -/
theorem C5_counterexample :
    lineFiveCenters (intentPhase exG5 exRng5).1 = [(2, 1)] ∧
      (getCell (intentPhase exG5 exRng5).1 (2, 1)).state = CellState.producer ∧
      (getCell (intentPhase exG5 exRng5).1 (2, 2)).state = CellState.empty ∧
      getCell (stepGrid exG5 exRng5).grid (2, 1) =
        getCell (intentPhase exG5 exRng5).1 (2, 1) := by
  decide

/-- C5 (amended): only a centre whose occupant is a plain DOT is resolved.
Such a centre with at least one empty cardinal neighbour moves its
occupant (team and health preserved, state `dot`) to one of those
neighbours — the head of the shuffle, hence a member of the open-neighbour
list — and the origin is vacated.  A producer centre is left untouched. -/
theorem C5_amended (g : Grid) (rng : Rng) (p : Pos) (hrect : Rect g)
    (hinp : inBounds p.1 p.2 (rowsOf g) (colsOf g) = true)
    (hdot : (getCell g p).state = CellState.dot)
    (hopen : openNeighbors g p.1 p.2 ≠ []) :
    ∃ q ∈ openNeighbors g p.1 p.2,
      (resolveCenter (g, rng) p).1 =
        setCell (setCell g q ⟨CellState.dot, (getCell g p).team, (getCell g p).health⟩) p
          emptyCell ∧
      getCell (resolveCenter (g, rng) p).1 p = emptyCell ∧
      getCell (resolveCenter (g, rng) p).1 q =
        ⟨CellState.dot, (getCell g p).team, (getCell g p).health⟩ := by
  have hemp : (openNeighbors g p.1 p.2).isEmpty = false := by
    cases hc : openNeighbors g p.1 p.2 with
    | nil => exact absurd hc hopen
    | cons a t => rfl
  refine ⟨(shuffled (openNeighbors g p.1 p.2) rng).1.headD (0, 0),
    headD_mem_shuffled (0, 0) hopen, ?_⟩
  set q := (shuffled (openNeighbors g p.1 p.2) rng).1.headD (0, 0) with hq
  have hqmem : q ∈ openNeighbors g p.1 p.2 := headD_mem_shuffled (0, 0) hopen
  have hqfacts : inBounds q.1 q.2 (rowsOf g) (colsOf g) = true ∧
      (getCell g q).state = CellState.empty := by
    have hqmem' := hqmem
    unfold openNeighbors at hqmem'
    have hpred := (List.mem_filter.mp hqmem').2
    simp only [Bool.and_eq_true, decide_eq_true_eq] at hpred
    exact hpred
  have hqin : inBounds q.1 q.2 (rowsOf g) (colsOf g) = true := hqfacts.1
  have hqempty : (getCell g q).state = CellState.empty := hqfacts.2
  have hpq : q ≠ p := by
    intro hc
    rw [hc, hdot] at hqempty
    cases hqempty
  have hres : (resolveCenter (g, rng) p).1 =
      setCell (setCell g q ⟨CellState.dot, (getCell g p).team, (getCell g p).health⟩) p
        emptyCell := by
    unfold resolveCenter
    rw [if_pos hdot]
    dsimp only
    rw [hemp, if_neg Bool.false_ne_true]
  have hvp : ValidPos g p := ValidPos_of_inBounds hrect hinp
  have hvq : ValidPos g q := ValidPos_of_inBounds hrect hqin
  refine ⟨hres, ?_, ?_⟩
  · rw [hres]
    exact getCell_setCell_self _ p emptyCell ((ValidPos_setCell g q p _).mpr hvp)
  · rw [hres, getCell_setCell_ne _ p q _ (fun hc => hpq hc.symm),
      getCell_setCell_self _ q _ hvq]

/-- C5 amended, witnessed: a lone dot centre on `[[dot, empty]]` moves to
its single empty neighbour (0,1) and vacates (0,0). -/
theorem C5_amended_witness :
    (Rect [[cBlueDot, emptyCell]] ∧
      inBounds 0 0 (rowsOf [[cBlueDot, emptyCell]]) (colsOf [[cBlueDot, emptyCell]]) = true ∧
      (getCell [[cBlueDot, emptyCell]] (0, 0)).state = CellState.dot ∧
      openNeighbors [[cBlueDot, emptyCell]] 0 0 ≠ []) ∧
    (∃ q ∈ openNeighbors [[cBlueDot, emptyCell]] 0 0,
      (resolveCenter ([[cBlueDot, emptyCell]], ⟨[]⟩) (0, 0)).1 =
        setCell
          (setCell [[cBlueDot, emptyCell]] q
            ⟨CellState.dot, (getCell [[cBlueDot, emptyCell]] (0, 0)).team,
              (getCell [[cBlueDot, emptyCell]] (0, 0)).health⟩) (0, 0) emptyCell ∧
      getCell (resolveCenter ([[cBlueDot, emptyCell]], ⟨[]⟩) (0, 0)).1 (0, 0) = emptyCell ∧
      getCell (resolveCenter ([[cBlueDot, emptyCell]], ⟨[]⟩) (0, 0)).1 q =
        ⟨CellState.dot, (getCell [[cBlueDot, emptyCell]] (0, 0)).team,
          (getCell [[cBlueDot, emptyCell]] (0, 0)).health⟩) := by
  refine ⟨⟨by decide, by decide, by decide, by decide⟩, ?_⟩
  exact C5_amended [[cBlueDot, emptyCell]] ⟨[]⟩ (0, 0) (by decide) (by decide) (by decide)
    (by decide)

/-! ## Claim C6 -/

theorem tokensAt_nil (p : Pos) : tokensAt p [] = 0 := rfl

theorem tokensAt_cons (p : Pos) (n : Nutrient) (l : List Nutrient) :
    tokensAt p (n :: l) =
      (if n.r = p.1 ∧ n.c = p.2 then 1 else 0) + tokensAt p l := by
  unfold tokensAt
  rw [List.filter_cons]
  by_cases h : n.r = p.1 ∧ n.c = p.2
  · rw [if_pos (by simp [h.1, h.2]), if_pos h, List.length_cons]
    omega
  · rw [if_neg (by simpa using h), if_neg h]
    omega

theorem tokensAt_append (p : Pos) (l1 l2 : List Nutrient) :
    tokensAt p (l1 ++ l2) = tokensAt p l1 + tokensAt p l2 := by
  unfold tokensAt
  rw [List.filter_append, List.length_append]

/-- Counting invariant threaded through the nutrient fold: at most one more
token than `k` may sit on `p`, and exactly `k` unless `p` has been claimed
this sub-tick. -/
def CountInv (p : Pos) (st : FlowState) (k : Nat) : Prop :=
  tokensAt p st.toks ≤ k + 1 ∧ (st.occ.count p = 0 → tokensAt p st.toks ≤ k)

theorem processToken_count (p : Pos) (st : FlowState) (n : Nutrient) (k : Nat)
    (h : CountInv p st k) :
    CountInv p (processToken st n) (k + (if n.r = p.1 ∧ n.c = p.2 then 1 else 0)) := by
  obtain ⟨h1, h2⟩ := h
  generalize hA : (if n.r = p.1 ∧ n.c = p.2 then (1 : Nat) else 0) = A
  have hA0 : ¬ (n.r = p.1 ∧ n.c = p.2) → A = 0 := by
    intro hat
    rw [← hA, if_neg hat]
  unfold processToken
  dsimp only
  split
  · split
    · -- dead end: tokens and occupancy unchanged
      refine ⟨by dsimp only; omega, ?_⟩
      dsimp only
      intro hc
      have := h2 hc
      omega
    · -- movement: destructure the shuffle
      rcases hsh : shuffled (wallNeighborDirs st.grid n.r n.c n.team (some n.dir)) st.rng
        with ⟨sh, rng2⟩
      dsimp only
      split
      · -- capped: the token stays on its own cell
        refine ⟨?_, ?_⟩
        · dsimp only
          rw [tokensAt_append, tokensAt_cons, tokensAt_nil, hA]
          omega
        · dsimp only
          intro hc
          rw [List.count_cons] at hc
          have hne : ¬ ((n.r, n.c) = p) := by
            intro hcp
            rw [if_pos (by rw [hcp]; exact beq_self_eq_true p)] at hc
            omega
          have hocc : st.occ.count p = 0 := by
            rw [if_neg (fun hbe => hne (by simpa using hbe))] at hc
            omega
          have hat : ¬ (n.r = p.1 ∧ n.c = p.2) := by
            intro hcp
            exact hne (Prod.ext hcp.1 hcp.2)
          rw [tokensAt_append, tokensAt_cons, tokensAt_nil, if_neg hat]
          have := h2 hocc
          omega
      · -- moved: the destination had no claim yet
        next hcap =>
        refine ⟨?_, ?_⟩
        · dsimp only
          rw [tokensAt_append, tokensAt_cons, tokensAt_nil]
          dsimp only
          by_cases hd : n.r + (sh.headD (0, 0)).1 = p.1 ∧ n.c + (sh.headD (0, 0)).2 = p.2
          · rw [if_pos hd]
            have hocc : st.occ.count p = 0 := by
              unfold MAX_NUTRIENTS_PER_CELL at hcap
              have hp : (n.r + (sh.headD (0, 0)).1, n.c + (sh.headD (0, 0)).2) = p :=
                Prod.ext hd.1 hd.2
              rw [hp] at hcap
              omega
            have := h2 hocc
            omega
          · rw [if_neg hd]
            omega
        · dsimp only
          intro hc
          rw [List.count_cons] at hc
          have hne : ¬ ((n.r + (sh.headD (0, 0)).1, n.c + (sh.headD (0, 0)).2) = p) := by
            intro hcp
            rw [if_pos (by rw [hcp]; exact beq_self_eq_true p)] at hc
            omega
          have hocc : st.occ.count p = 0 := by
            rw [if_neg (fun hbe => hne (by simpa using hbe))] at hc
            omega
          have hat : ¬ (n.r + (sh.headD (0, 0)).1 = p.1 ∧ n.c + (sh.headD (0, 0)).2 = p.2) := by
            intro hcp
            exact hne (Prod.ext hcp.1 hcp.2)
          rw [tokensAt_append, tokensAt_cons, tokensAt_nil]
          dsimp only
          rw [if_neg hat]
          have := h2 hocc
          omega
  · -- invalid host: untouched
    refine ⟨by omega, fun hc => by have := h2 hc; omega⟩

theorem flowFold_count (p : Pos) :
    ∀ (l : List Nutrient) (st : FlowState) (k : Nat), CountInv p st k →
      CountInv p (l.foldl processToken st) (k + tokensAt p l) := by
  intro l
  induction l with
  | nil =>
    intro st k h
    rw [tokensAt_nil]
    exact h
  | cons n t ih =>
    intro st k h
    rw [List.foldl_cons, tokensAt_cons]
    have := ih (processToken st n) _ (processToken_count p st n k h)
    have harith : k + (if n.r = p.1 ∧ n.c = p.2 then 1 else 0) + tokensAt p t =
        k + ((if n.r = p.1 ∧ n.c = p.2 then 1 else 0) + tokensAt p t) := by omega
    rw [← harith]
    exact this

theorem emitStep_count (p : Pos) (st : FlowState) (q : Pos) (k : Nat)
    (h : CountInv p st k) : CountInv p (emitStep st q) k := by
  obtain ⟨h1, h2⟩ := h
  unfold emitStep
  dsimp only
  split
  · split
    · split
      · exact ⟨h1, h2⟩
      · rcases hsh : shuffled (wallNeighborDirs st.grid q.1 q.2 _ none) st.rng with ⟨sh, rng2⟩
        dsimp only
        split
        · exact ⟨h1, h2⟩
        · next hcap =>
          refine ⟨?_, ?_⟩
          · dsimp only
            rw [tokensAt_append, tokensAt_cons, tokensAt_nil]
            dsimp only
            by_cases hd : q.1 + (sh.headD (0, 0)).1 = p.1 ∧ q.2 + (sh.headD (0, 0)).2 = p.2
            · rw [if_pos hd]
              have hocc : st.occ.count p = 0 := by
                have hnocap : ¬ (MAX_NUTRIENTS_PER_CELL ≤
                    st.occ.count (q.1 + (sh.headD (0, 0)).1, q.2 + (sh.headD (0, 0)).2)) := hcap
                unfold MAX_NUTRIENTS_PER_CELL at hnocap
                have hp : (q.1 + (sh.headD (0, 0)).1, q.2 + (sh.headD (0, 0)).2) = p :=
                  Prod.ext hd.1 hd.2
                rw [hp] at hnocap
                omega
              have := h2 hocc
              omega
            · rw [if_neg hd]
              omega
          · dsimp only
            intro hc
            rw [List.count_cons] at hc
            have hne : ¬ ((q.1 + (sh.headD (0, 0)).1, q.2 + (sh.headD (0, 0)).2) = p) := by
              intro hcp
              rw [if_pos (by rw [hcp]; exact beq_self_eq_true p)] at hc
              omega
            have hocc : st.occ.count p = 0 := by
              rw [if_neg (fun hbe => hne (by simpa using hbe))] at hc
              omega
            have hat : ¬ (q.1 + (sh.headD (0, 0)).1 = p.1 ∧
                q.2 + (sh.headD (0, 0)).2 = p.2) := by
              intro hcp
              exact hne (Prod.ext hcp.1 hcp.2)
            rw [tokensAt_append, tokensAt_cons, tokensAt_nil]
            dsimp only
            rw [if_neg hat]
            have := h2 hocc
            omega
    · exact ⟨h1, h2⟩
  · exact ⟨h1, h2⟩

theorem emitFold_count (p : Pos) :
    ∀ (l : List Pos) (st : FlowState) (k : Nat), CountInv p st k →
      CountInv p (l.foldl emitStep st) k := by
  intro l
  induction l with
  | nil => intro st k h; exact h
  | cons a t ih =>
    intro st k h
    rw [List.foldl_cons]
    exact ih _ k (emitStep_count p st a k h)

/-- C6 (amended): one flow call lets at most ONE token arrive at any cell
(the occupancy map blocks later movers and emissions), but a token blocked
by the cap stays in place even when its own cell was already claimed by an
arriving token, so the returned set is NOT capped at one token per cell: it
can hold one stayer plus one arriver.  What holds is the bound: on every
cell, the returned token count exceeds the input token count by at most
one. -/
theorem C6_amended (g : Grid) (ns : List Nutrient) (tick : Nat) (rng : Rng) (p : Pos) :
    tokensAt p (runNutrients g ns tick rng).tokens ≤ tokensAt p ns + 1 := by
  have hinit : CountInv p ⟨g, [], [], rng⟩ 0 := by
    constructor
    · rw [tokensAt_nil]
      omega
    · intro _
      rw [tokensAt_nil]
  have hfold := flowFold_count p ns ⟨g, [], [], rng⟩ 0 hinit
  unfold runNutrients
  dsimp only
  split
  · have := (emitFold_count p (positions (rowsOf g) (colsOf g))
      (ns.foldl processToken ⟨g, [], [], rng⟩) (0 + tokensAt p ns) hfold).1
    omega
  · have := hfold.1
    omega

/-- Board and tokens for the C6 counterexample: a 1×4 blue wall.  Token A
at (0,0) moves right onto (0,1); token C at (0,3) moves left onto (0,2);
token B at (0,1), forbidden from doubling back, is then capped at (0,2)
and stays at (0,1) — which token A has just claimed. -/
def exToks6 : List Nutrient :=
  [⟨0, 0, Team.blue, (0, 1), none⟩, ⟨0, 3, Team.blue, (0, -1), none⟩,
   ⟨0, 1, Team.blue, (0, 1), none⟩]

/-- C6 counterexample: the returned token set holds TWO tokens on cell
(0,1) although the input held one — the per-cell occupancy cap of 1 is not
an invariant of the returned set. -/
theorem C6_counterexample :
    tokensAt (0, 1)
        (runNutrients [[cBlueBlock, cBlueBlock, cBlueBlock, cBlueBlock]] exToks6 1 ⟨[]⟩).tokens
      = 2 ∧
    tokensAt (0, 1) exToks6 = 1 := by
  decide

/-! ## Claim C7 -/

theorem cardinal_shift_ne (q : Pos) (d : Dir) (hd : d ∈ CARDINALS) :
    (q.1 + d.1, q.2 + d.2) ≠ q := by
  unfold CARDINALS at hd
  simp only [List.mem_cons, List.not_mem_nil, or_false] at hd
  rcases hd with rfl | rfl | rfl | rfl <;>
    (intro h; rw [Prod.ext_iff] at h; dsimp at h; omega)

/-- Feeding only changes the fed cell's health, and the enemy check never
looks at the fed cell itself, so it can be read off the original grid. -/
theorem hasEnemyNeighbor_setCell_self (g : Grid) (q : Pos) (v : Cell) (t : Option Team) :
    hasEnemyNeighbor (setCell g q v) q.1 q.2 t = hasEnemyNeighbor g q.1 q.2 t := by
  unfold hasEnemyNeighbor
  cases t with
  | none => rfl
  | some t =>
    rw [Bool.eq_iff_iff, List.any_eq_true, List.any_eq_true]
    constructor
    · rintro ⟨d, hd, hprop⟩
      refine ⟨d, hd, ?_⟩
      dsimp only at hprop ⊢
      rw [rowsOf_setCell, colsOf_setCell,
        getCell_setCell_ne g q _ v (cardinal_shift_ne q d hd).symm] at hprop
      exact hprop
    · rintro ⟨d, hd, hprop⟩
      refine ⟨d, hd, ?_⟩
      dsimp only at hprop ⊢
      rw [rowsOf_setCell, colsOf_setCell,
        getCell_setCell_ne g q _ v (cardinal_shift_ne q d hd).symm]
      exact hprop

/-- C7: a token whose host wall has no cardinal same-team wall neighbour is
consumed without moving: it is absent from the returned token set (and
claims no occupancy and draws no randomness).  If a cardinal same-team
dot/producer exists, the first one in the fixed scan order is fed: its
health becomes `min 3 (health+1)`, its team is unchanged, every other cell
is unchanged, and it ends as a producer exactly when it has no cardinal,
non-empty, opposing-team neighbour (or already was one).  With no friendly
dot/producer neighbour the grid is unchanged. -/
theorem C7_deadEnd (st : FlowState) (n : Nutrient) (hrect : Rect st.grid)
    (hv : validHost st.grid n = true)
    (hd : wallNeighborDirs st.grid n.r n.c n.team (some n.dir) = []) :
    (processToken st n).toks = st.toks ∧
    (processToken st n).occ = st.occ ∧
    (processToken st n).rng = st.rng ∧
    (friendlyDots st.grid n = [] → (processToken st n).grid = st.grid) ∧
    (∀ q rest, friendlyDots st.grid n = q :: rest →
      (getCell (processToken st n).grid q).health =
          some (min MAX_HEALTH ((getCell st.grid q).health.getD 0 + 1)) ∧
        (getCell (processToken st n).grid q).team = (getCell st.grid q).team ∧
        ((getCell (processToken st n).grid q).state = CellState.producer ↔
          (hasEnemyNeighbor st.grid q.1 q.2 (some n.team) = false ∨
            (getCell st.grid q).state = CellState.producer)) ∧
        (∀ p', p' ≠ q → getCell (processToken st n).grid p' = getCell st.grid p')) := by
  have hstep : processToken st n = { st with grid := handleDeadEnd st.grid n } := by
    unfold processToken
    dsimp only
    rw [if_pos hv, hd]
    rfl
  rw [hstep]
  refine ⟨rfl, rfl, rfl, ?_, ?_⟩
  · intro hnone
    dsimp only
    unfold handleDeadEnd
    rw [hnone]
  · intro q rest hfirst
    dsimp only
    have hqmem : q ∈ friendlyDots st.grid n := by
      rw [hfirst]
      exact List.mem_cons_self q rest
    have hqpred : inBounds q.1 q.2 (rowsOf st.grid) (colsOf st.grid) = true ∧
        (getCell st.grid q).team = some n.team ∧ isDotLike (getCell st.grid q) = true := by
      unfold friendlyDots at hqmem
      have := (List.mem_filter.mp hqmem).2
      simp only [Bool.and_eq_true, decide_eq_true_eq] at this
      exact ⟨this.1.1, this.1.2, this.2⟩
    have hvq : ValidPos st.grid q := ValidPos_of_inBounds hrect hqpred.1
    have hfeed : handleDeadEnd st.grid n = feedDot st.grid q n.team := by
      unfold handleDeadEnd
      rw [hfirst]
    rw [hfeed]
    unfold feedDot
    dsimp only
    rw [if_pos (by
      simp only [Bool.and_eq_true, decide_eq_true_eq]
      exact ⟨hqpred.2.1, hqpred.2.2⟩)]
    set fed : Cell :=
      { getCell st.grid q with
        health := some (min MAX_HEALTH ((getCell st.grid q).health.getD 0 + 1)) } with hfedeq
    have henemy : hasEnemyNeighbor (setCell st.grid q fed) q.1 q.2 (some n.team) =
        hasEnemyNeighbor st.grid q.1 q.2 (some n.team) :=
      hasEnemyNeighbor_setCell_self st.grid q fed (some n.team)
    by_cases hen : hasEnemyNeighbor st.grid q.1 q.2 (some n.team) = true
    · rw [if_pos (by rw [henemy]; exact hen)]
      rw [getCell_setCell_self st.grid q fed hvq]
      refine ⟨rfl, rfl, ?_, ?_⟩
      · constructor
        · intro hstate
          exact Or.inr hstate
        · intro hor
          rcases hor with h | h
          · rw [hen] at h
            cases h
          · exact h
      · intro p' hp'
        exact getCell_setCell_ne st.grid q p' fed fun hc => hp' hc.symm
    · rw [if_neg (by rw [henemy]; exact hen)]
      have hvq1 : ValidPos (setCell st.grid q fed) q := (ValidPos_setCell _ _ _ _).mpr hvq
      rw [getCell_setCell_self _ q _ hvq1]
      refine ⟨rfl, rfl, ?_, ?_⟩
      · constructor
        · intro _
          exact Or.inl (by simpa using hen)
        · intro _
          rfl
      · intro p' hp'
        rw [getCell_setCell_ne _ q p' _ fun hc => hp' hc.symm,
          getCell_setCell_ne _ q p' _ fun hc => hp' hc.symm]

/-- C7, witnessed: on `[[blue wall, blue dot]]` a token at (0,0) dead-ends,
feeds the dot at (0,1) to health 1 and converts it to a producer. -/
theorem C7_deadEnd_witness :
    (Rect [[cBlueBlock, cBlueDot]] ∧
      validHost [[cBlueBlock, cBlueDot]] ⟨0, 0, Team.blue, (0, 1), none⟩ = true ∧
      wallNeighborDirs [[cBlueBlock, cBlueDot]] 0 0 Team.blue (some (0, 1)) = []) ∧
    (processToken ⟨[[cBlueBlock, cBlueDot]], [], [], ⟨[]⟩⟩
        ⟨0, 0, Team.blue, (0, 1), none⟩).toks = [] ∧
    (∀ q rest, friendlyDots [[cBlueBlock, cBlueDot]] ⟨0, 0, Team.blue, (0, 1), none⟩ =
        q :: rest →
      (getCell (processToken ⟨[[cBlueBlock, cBlueDot]], [], [], ⟨[]⟩⟩
          ⟨0, 0, Team.blue, (0, 1), none⟩).grid q).health =
        some (min MAX_HEALTH
          ((getCell [[cBlueBlock, cBlueDot]] q).health.getD 0 + 1))) := by
  refine ⟨⟨by decide, by decide, by decide⟩, ?_, ?_⟩
  · exact (C7_deadEnd ⟨[[cBlueBlock, cBlueDot]], [], [], ⟨[]⟩⟩
      ⟨0, 0, Team.blue, (0, 1), none⟩ (by decide) (by decide) (by decide)).1
  · intro q rest hfirst
    exact ((C7_deadEnd ⟨[[cBlueBlock, cBlueDot]], [], [], ⟨[]⟩⟩
      ⟨0, 0, Team.blue, (0, 1), none⟩ (by decide) (by decide) (by decide)).2.2.2.2
      q rest hfirst).1

/-! ## Claim C9 -/

theorem SInv_emptyCell : SInv emptyCell :=
  ⟨fun _ => rfl, fun h => absurd rfl h, by decide⟩

theorem SInv_mk_nonempty (s : CellState) (t : Option Team) (h : Option Nat)
    (hs : s ≠ CellState.empty) (ht : t.isSome = true) (hh : h.getD 0 ≤ MAX_HEALTH) :
    SInv ⟨s, t, h⟩ :=
  ⟨fun hc => absurd hc hs, fun _ => ht, hh⟩

theorem list_getD_mem {α : Type _} (l : List α) (n : Nat) (d : α) (h : n < l.length) :
    l.getD n d ∈ l := by
  have : l.getD n d = l[n] := by
    rw [List.getD_eq_getElem?_getD, List.getElem?_eq_getElem h]
    rfl
  rw [this]
  exact List.getElem_mem h

theorem list_getD_oob {α : Type _} (l : List α) (n : Nat) (d : α) (h : ¬ n < l.length) :
    l.getD n d = d := by
  rw [List.getD_eq_getElem?_getD]
  have : l[n]? = none := by
    rw [List.getElem?_eq_none_iff]
    omega
  rw [this]
  rfl

theorem SInv_getCell {g : Grid} (hg : GridInv g) (p : Pos) : SInv (getCell g p) := by
  unfold getCell
  split
  · by_cases hr : p.1.toNat < g.length
    · by_cases hc : p.2.toNat < (g.getD p.1.toNat []).length
      · exact hg _ (list_getD_mem g p.1.toNat [] hr) _ (list_getD_mem _ p.2.toNat emptyCell hc)
      · rw [list_getD_oob _ _ _ hc]
        exact SInv_emptyCell
    · rw [list_getD_oob g _ _ hr]
      exact SInv_emptyCell
  · exact SInv_emptyCell

theorem GridInv_setCell {g : Grid} (hg : GridInv g) {v : Cell} (hv : SInv v) (p : Pos) :
    GridInv (setCell g p v) := by
  intro row hrow cell hcell
  unfold setCell at hrow
  split at hrow
  · rcases List.mem_or_eq_of_mem_set hrow with h | h
    · exact hg row h cell hcell
    · subst h
      rcases List.mem_or_eq_of_mem_set hcell with h2 | h2
      · by_cases hr : p.1.toNat < g.length
        · exact hg _ (list_getD_mem g p.1.toNat [] hr) cell h2
        · rw [list_getD_oob g _ _ hr] at h2
          exact absurd h2 (List.not_mem_nil cell)
      · subst h2
        exact hv
  · exact hg row hrow cell hcell

/-- Generic preservation of the grid invariant through a fold, with
membership available to the step hypothesis. -/
theorem GridInv_foldl_mem {β : Type _} (f : Grid → β → Grid) :
    ∀ (l : List β) (g0 : Grid), GridInv g0 →
      (∀ acc b, b ∈ l → GridInv acc → GridInv (f acc b)) → GridInv (l.foldl f g0) := by
  intro l
  induction l with
  | nil => intro g0 hg _; exact hg
  | cons a t ih =>
    intro g0 hg hf
    rw [List.foldl_cons]
    exact ih _ (hf g0 a (List.mem_cons_self a t) hg)
      fun acc b hb => hf acc b (List.mem_cons_of_mem a hb)

theorem isDotLike_ne_empty {cell : Cell} (h : isDotLike cell = true) :
    cell.state ≠ CellState.empty := by
  intro hc
  unfold isDotLike at h
  rw [hc] at h
  cases h

theorem isDotLike_team_isSome {g : Grid} (hg : GridInv g) (p : Pos)
    (h : isDotLike (getCell g p) = true) : (getCell g p).team.isSome = true :=
  (SInv_getCell hg p).2.1 (isDotLike_ne_empty h)

theorem replicationIntents_teamSome (g : Grid) (rng : Rng) (hg : GridInv g) :
    ∀ it ∈ (replicationIntents g rng).1, it.team.isSome = true := by
  intro it hit
  refine scanFold_prop g (fun it => it.team.isSome = true) ?_
    (positions (rowsOf g) (colsOf g)) ([], rng)
    (by intro it' h; exact absurd h (List.not_mem_nil it')) it hit
  intro p dirs it' hdl htry
  have hteam := (tryDirs_some g p.1 p.2 (getCell g p).team dirs it' htry).2
  rw [hteam]
  exact isDotLike_team_isSome hg p hdl

theorem applyArm_inv (g next : Grid) (hg : GridInv g) (hn : GridInv next) :
    GridInv (applyArm g next) := by
  unfold applyArm
  refine GridInv_foldl_mem _ _ _ hn ?_
  intro acc p hp hacc
  have hdl : isDotLike (getCell g p) = true := by
    have := (List.mem_filter.mp hp).2
    simp only [Bool.and_eq_true] at this
    exact this.1
  exact GridInv_setCell hacc
    (SInv_mk_nonempty _ _ _ (by intro h; cases h) (isDotLike_team_isSome hg p hdl) (by decide)) p

theorem applyHot_inv (g next : Grid) (hg : GridInv g) (hn : GridInv next) :
    GridInv (applyHot g next) := by
  unfold applyHot
  refine GridInv_foldl_mem _ _ _ hn ?_
  intro acc p hp hacc
  have harm : (getCell g p).state = CellState.bombArmed := by
    have := (List.mem_filter.mp hp).2
    simpa using this
  have hsome : (getCell g p).team.isSome = true :=
    (SInv_getCell hg p).2.1 (by rw [harm]; intro h; cases h)
  exact GridInv_setCell hacc
    (SInv_mk_nonempty _ _ _ (by intro h; cases h) hsome (by decide)) p

theorem applyBlasts_inv (cells : List Pos) (next : Grid) (rows cols : Nat) (rng : Rng)
    (hn : GridInv next) : GridInv (applyBlasts next cells rows cols rng).1 := by
  unfold applyBlasts
  suffices h : ∀ (l : List Pos) (st : Grid × Rng), GridInv st.1 →
      GridInv ((l.foldl (fun st p =>
        if inBounds p.1 p.2 rows cols = true then
          if (getCell st.1 p).state = CellState.bombArmed ∨
              (getCell st.1 p).state = CellState.bombHot then
            (setCell st.1 p emptyCell, st.2)
          else
            if (st.2.next).1 < BLAST_SURVIVAL_CHANCE then (st.1, (st.2.next).2)
            else (setCell st.1 p emptyCell, (st.2.next).2)
        else st) st)).1 by
    exact h cells (next, rng) hn
  intro l
  induction l with
  | nil => intro st h; exact h
  | cons a t ih =>
    intro st h
    rw [List.foldl_cons]
    refine ih _ ?_
    split
    · split
      · exact GridInv_setCell h SInv_emptyCell a
      · split
        · exact h
        · exact GridInv_setCell h SInv_emptyCell a
    · exact h

theorem applyIntent_inv (g : Grid) (it : Intent) (hg : GridInv g)
    (ht : it.team.isSome = true) : GridInv (applyIntent g it) := by
  unfold applyIntent
  dsimp only
  split
  · exact GridInv_setCell hg (SInv_mk_nonempty _ _ _ (by intro h; cases h) ht (by decide)) _
  · split
    · split
      · refine GridInv_setCell hg ?_ _
        have hcell := SInv_getCell hg (it.r, it.c)
        refine ⟨hcell.1, hcell.2.1, ?_⟩
        have := hcell.2.2
        simp only [Option.getD_some]
        omega
      · exact GridInv_setCell hg (SInv_mk_nonempty _ _ _ (by intro h; cases h) ht (by decide)) _
    · exact hg

theorem resolveIntents_inv (next : Grid) (intents : List Intent) (rng : Rng)
    (hn : GridInv next) (ht : ∀ it ∈ intents, it.team.isSome = true) :
    GridInv (resolveIntents next intents rng).1 := by
  unfold resolveIntents
  dsimp only
  have hts : ∀ it ∈ (shuffled intents rng).1, it.team.isSome = true :=
    fun it hit => ht it (mem_shuffled hit)
  revert hts
  generalize (shuffled intents rng).1 = l
  intro hts
  induction l generalizing next with
  | nil => exact hn
  | cons a t ih =>
    rw [List.foldl_cons]
    exact ih (applyIntent next a)
      (applyIntent_inv next a hn (hts a (List.mem_cons_self a t)))
      fun it hit => hts it (List.mem_cons_of_mem a hit)

theorem resolveCenter_inv (st : Grid × Rng) (p : Pos) (hg : GridInv st.1) :
    GridInv (resolveCenter st p).1 := by
  unfold resolveCenter
  dsimp only
  split
  · next hdot =>
    have hsome : (getCell st.1 p).team.isSome = true :=
      (SInv_getCell hg p).2.1 (by rw [hdot]; intro h; cases h)
    split
    · -- burst
      dsimp only
      refine GridInv_foldl_mem _ DIAGONALS (setCell st.1 p emptyCell)
        (GridInv_setCell hg SInv_emptyCell p) ?_
      intro acc d _ hacc
      split
      · split
        · exact GridInv_setCell hacc
            (SInv_mk_nonempty _ _ _ (by intro h; cases h) hsome (by decide)) _
        · exact GridInv_setCell hacc
            (SInv_mk_nonempty _ _ _ (by intro h; cases h) hsome (by decide)) _
      · exact hacc
    · -- move
      dsimp only
      have hhealth : (getCell st.1 p).health.getD 0 ≤ MAX_HEALTH := (SInv_getCell hg p).2.2
      refine GridInv_setCell ?_ SInv_emptyCell p
      exact GridInv_setCell hg
        (SInv_mk_nonempty _ _ _ (by intro h; cases h) hsome hhealth) _
  · exact hg

theorem resolveCenterFold_inv : ∀ (l : List Pos) (st : Grid × Rng), GridInv st.1 →
    GridInv ((l.foldl resolveCenter st).1) := by
  intro l
  induction l with
  | nil => intro st h; exact h
  | cons a t ih =>
    intro st h
    rw [List.foldl_cons]
    exact ih _ (resolveCenter_inv st a h)

theorem resolveCenters_inv (g : Grid) (centers : List Pos) (rng : Rng) (hg : GridInv g) :
    GridInv (resolveCenters g centers rng).1 := by
  unfold resolveCenters
  dsimp only
  exact resolveCenterFold_inv _ (g, (shuffled centers rng).2) hg

theorem stepGrid_inv (g : Grid) (rng : Rng) (hg : GridInv g) :
    GridInv (stepGrid g rng).grid := by
  have hbombinv : ∀ rng', GridInv (bombPhase g rng').1 := by
    intro rng'
    unfold bombPhase
    rcases hgb : gatherBlasts g rng' with ⟨bc, rng1⟩
    dsimp only
    rcases hab : applyBlasts (applyHot g (applyArm g g)) bc (rowsOf g) (colsOf g) rng1
      with ⟨n3, rng2⟩
    dsimp only
    have := applyBlasts_inv bc (applyHot g (applyArm g g)) (rowsOf g) (colsOf g) rng1
      (applyHot_inv g _ hg (applyArm_inv g g hg hg))
    rw [hab] at this
    exact this
  have hipinv : GridInv (intentPhase g rng).1 := by
    unfold intentPhase
    rcases hbp : bombPhase g rng with ⟨n3, b3, rng3⟩
    dsimp only
    rcases hri : replicationIntents g rng3 with ⟨its, rng4⟩
    dsimp only
    rcases hrsi : resolveIntents n3 its rng4 with ⟨n4, rng5⟩
    dsimp only
    have hn3 : GridInv n3 := by
      have := hbombinv rng
      rw [hbp] at this
      exact this
    have hits : ∀ it ∈ its, it.team.isSome = true := by
      intro it hit
      have := replicationIntents_teamSome g rng3 hg it
      rw [hri] at this
      exact this hit
    have := resolveIntents_inv n3 its rng4 hn3 hits
    rw [hrsi] at this
    exact this
  unfold stepGrid
  rcases hip : intentPhase g rng with ⟨n4, b4, rng4⟩
  dsimp only
  rcases hrc : resolveCenters n4 (lineFiveCenters n4) rng4 with ⟨n5, rng5⟩
  dsimp only
  have hn4 : GridInv n4 := by
    rw [hip] at hipinv
    exact hipinv
  have := resolveCenters_inv n4 (lineFiveCenters n4) rng4 hn4
  rw [hrc] at this
  exact this

theorem feedDot_inv (g : Grid) (p : Pos) (team : Team) (hg : GridInv g) :
    GridInv (feedDot g p team) := by
  unfold feedDot
  dsimp only
  split
  · next hguard =>
    simp only [Bool.and_eq_true, decide_eq_true_eq] at hguard
    have hcell := SInv_getCell hg p
    have hfed : SInv { getCell g p with
        health := some (min MAX_HEALTH ((getCell g p).health.getD 0 + 1)) } := by
      refine ⟨hcell.1, hcell.2.1, ?_⟩
      simp only [Option.getD_some]
      exact Nat.min_le_left _ _
    split
    · exact GridInv_setCell hg hfed p
    · refine GridInv_setCell (GridInv_setCell hg hfed p) ?_ p
      refine SInv_mk_nonempty _ _ _ (by intro h; cases h) ?_ ?_
      · rw [hguard.1]
        rfl
      · simp only [Option.getD_some]
        exact Nat.min_le_left _ _
  · exact hg

theorem handleDeadEnd_inv (g : Grid) (n : Nutrient) (hg : GridInv g) :
    GridInv (handleDeadEnd g n) := by
  unfold handleDeadEnd
  split
  · exact hg
  · exact feedDot_inv g _ n.team hg

theorem processToken_grid_inv (st : FlowState) (n : Nutrient) (hg : GridInv st.grid) :
    GridInv (processToken st n).grid := by
  unfold processToken
  dsimp only
  split
  · split
    · exact handleDeadEnd_inv st.grid n hg
    · rcases hsh : shuffled (wallNeighborDirs st.grid n.r n.c n.team (some n.dir)) st.rng
        with ⟨sh, rng2⟩
      dsimp only
      split
      · exact hg
      · exact hg
  · exact hg

theorem emitStep_grid (st : FlowState) (q : Pos) : (emitStep st q).grid = st.grid := by
  unfold emitStep
  dsimp only
  split
  · split
    · split
      · rfl
      · rcases hsh : shuffled (wallNeighborDirs st.grid q.1 q.2 _ none) st.rng with ⟨sh, rng2⟩
        dsimp only
        split
        · rfl
        · rfl
    · rfl
  · rfl

theorem emitFold_grid : ∀ (l : List Pos) (st : FlowState),
    (l.foldl emitStep st).grid = st.grid := by
  intro l
  induction l with
  | nil => intro st; rfl
  | cons a t ih =>
    intro st
    rw [List.foldl_cons, ih, emitStep_grid]

theorem flowFold_grid_inv : ∀ (l : List Nutrient) (st : FlowState),
    GridInv st.grid → GridInv ((l.foldl processToken st).grid) := by
  intro l
  induction l with
  | nil => intro st h; exact h
  | cons a t ih =>
    intro st h
    rw [List.foldl_cons]
    exact ih _ (processToken_grid_inv st a h)

theorem runNutrients_inv (g : Grid) (ns : List Nutrient) (tick : Nat) (rng : Rng)
    (hg : GridInv g) : GridInv (runNutrients g ns tick rng).grid := by
  unfold runNutrients
  dsimp only
  split
  · rw [emitFold_grid]
    exact flowFold_grid_inv ns _ hg
  · exact flowFold_grid_inv ns _ hg

theorem placeDot_inv (g : Grid) (team : Team) (r c : Int) (hg : GridInv g) :
    GridInv (placeDot g team r c) := by
  unfold placeDot
  split
  · exact GridInv_setCell hg
      (SInv_mk_nonempty _ (some team) _ (by intro h; cases h) rfl (by decide)) _
  · exact hg

theorem placeProducer_inv (g : Grid) (team : Team) (r c : Int) (hg : GridInv g) :
    GridInv (placeProducer g team r c) := by
  unfold placeProducer
  split
  · exact GridInv_setCell hg
      (SInv_mk_nonempty _ (some team) _ (by intro h; cases h) rfl (by decide)) _
  · exact hg

theorem createEmptyGrid_inv (rows cols : Nat) : GridInv (createEmptyGrid rows cols) := by
  intro row hrow cell hcell
  unfold createEmptyGrid at hrow
  have hroweq := List.eq_of_mem_replicate hrow
  subst hroweq
  have hcelleq := List.eq_of_mem_replicate hcell
  subst hcelleq
  exact SInv_emptyCell

/-- C9: every grid reachable through any sequence of rule ticks, nutrient
ticks, seedings and resets satisfies the cell-state invariants: an empty
cell has no team, every block cell has a team, and health (absent read as
0) never exceeds 3. -/
theorem C9_invariants (g : Grid) (hreach : Reachable g) :
    ∀ row ∈ g, ∀ cell ∈ row,
      (cell.state = CellState.empty → cell.team = none) ∧
      (cell.state = CellState.block → cell.team ≠ none) ∧
      cell.health.getD 0 ≤ MAX_HEALTH := by
  have hinv : GridInv g := by
    induction hreach with
    | init => exact createEmptyGrid_inv ROWS COLS
    | step g rng _ ih => exact stepGrid_inv g rng ih
    | flow g ns tick rng _ ih => exact runNutrients_inv g ns tick rng ih
    | seedDot g team r c _ ih => exact placeDot_inv g team r c ih
    | seedProducer g team r c _ ih => exact placeProducer_inv g team r c ih
    | reset g _ _ => exact createEmptyGrid_inv ROWS COLS
  intro row hrow cell hcell
  obtain ⟨h1, h2, h3⟩ := hinv row hrow cell hcell
  refine ⟨h1, ?_, h3⟩
  intro hblock
  have hsome : cell.team.isSome = true := h2 (by rw [hblock]; intro h; cases h)
  intro hnone
  rw [hnone] at hsome
  cases hsome

/-- C9, witnessed at the top-left cell of the initial board. -/
theorem C9_invariants_witness :
    List.replicate COLS emptyCell ∈ createEmptyGrid ROWS COLS ∧
    emptyCell ∈ List.replicate COLS emptyCell ∧
    (emptyCell.state = CellState.empty → emptyCell.team = none) ∧
    (emptyCell.state = CellState.block → emptyCell.team ≠ none) ∧
    emptyCell.health.getD 0 ≤ MAX_HEALTH := by
  refine ⟨by decide, by decide, ?_⟩
  exact C9_invariants (createEmptyGrid ROWS COLS) Reachable.init
    (List.replicate COLS emptyCell) (by decide) emptyCell (by decide)

/-! ## Claim C10 -/

/-- C10: seeding an empty cell — clicking a dot or dropping a producer
chip — creates the new occupant with health exactly 0 (and the requested
state and team). -/
theorem C10_seed_health (g : Grid) (team : Team) (r c : Int) (hrect : Rect g)
    (hin : inBounds r c (rowsOf g) (colsOf g) = true)
    (hemp : (getCell g (r, c)).state = CellState.empty) :
    getCell (placeDot g team r c) (r, c) = ⟨CellState.dot, some team, some 0⟩ ∧
    getCell (placeProducer g team r c) (r, c) = ⟨CellState.producer, some team, some 0⟩ := by
  have hv : ValidPos g (r, c) := ValidPos_of_inBounds hrect hin
  constructor
  · unfold placeDot
    rw [if_pos hemp]
    exact getCell_setCell_self g (r, c) _ hv
  · unfold placeProducer
    rw [if_pos hemp]
    exact getCell_setCell_self g (r, c) _ hv

/-- C10, witnessed on a 1×1 empty board. -/
theorem C10_seed_health_witness :
    (Rect [[emptyCell]] ∧ inBounds 0 0 (rowsOf [[emptyCell]]) (colsOf [[emptyCell]]) = true ∧
      (getCell [[emptyCell]] (0, 0)).state = CellState.empty) ∧
    getCell (placeDot [[emptyCell]] Team.blue 0 0) (0, 0) =
      ⟨CellState.dot, some Team.blue, some 0⟩ ∧
    getCell (placeProducer [[emptyCell]] Team.blue 0 0) (0, 0) =
      ⟨CellState.producer, some Team.blue, some 0⟩ := by
  refine ⟨⟨by decide, by decide, by decide⟩, ?_⟩
  exact C10_seed_health [[emptyCell]] Team.blue 0 0 (by decide) (by decide) (by decide)

end Dots
